import Mathlib

/-!
Verification development for the multi-identifier rate-limiting and
session/quota coordination engine of the meetLovish backend.

The definitions below are a shallow embedding of the JavaScript source:

* src/utils/rateLimiter.js — class RateLimiter: checkRateLimit /
  checkRateLimitFallback, incrementCount / incrementCountFallback,
  generateFingerprint, and the identifier resolution performed inline in
  each of those methods.  The durable MongoDB collection (models/RateLimit.js,
  unique compound index on (identifier, type)) and the in-memory fallback
  Map are both modelled as association lists keyed by (kind, key); the
  Mongo findOneAndUpdate upsert / $inc operations become pure functions on
  that list.  Timestamps are milliseconds as natural numbers; the server
  clock is taken to be UTC, so the start of the current day and the top of
  the next hour are arithmetic on the epoch value.
* src/unnamed/part_001 — the POST /api/chat route: check, then (only when
  allowed) increment, reporting the post-increment counts on success and
  the check counts on denial.
* src/models/User.js — UserSchema.statics.findOrCreateByToken over a
  collection with a unique index on token.

Stateful JavaScript becomes explicit state passing; every definition is
computable so that concrete runs evaluate by decide / rfl.
-/

set_option autoImplicit false

namespace MeetLovish

/-- Identifier kinds used by the rate limiter: the caller network address,
the client-supplied persistent token, and the derived browser fingerprint
(the source strings are ip, userToken, fingerprint). -/
inductive IdKind where
  | ip
  | userToken
  | fingerprint
deriving DecidableEq, Repr

/-- A rate-limit identifier: a (kind, value) pair, mirroring the objects
built inline in checkRateLimit and incrementCount. -/
structure Ident where
  kind : IdKind
  key : String
deriving DecidableEq, Repr

/-- One counter record, mirroring both a models/RateLimit.js document and a
fallbackStore Map entry: two rolling counts and their reset timestamps. -/
structure RateLimitRecord where
  dailyCount : Nat
  hourlyCount : Nat
  dailyResetTime : Nat
  hourlyResetTime : Nat
deriving DecidableEq, Repr

/-- A keyed store of counter records.  The durable collection is keyed by
the unique compound index (identifier, type); the fallback Map is keyed by
the string type:key.  Both are modelled as an association list over Ident. -/
abbrev Store := List (Ident × RateLimitRecord)

/-- Look up the record for an identifier. -/
def getRec : Store → Ident → Option RateLimitRecord
  | [], _ => none
  | (i, r) :: rest, j => if i = j then some r else getRec rest j

/-- Write the record for an identifier, replacing an existing entry or
appending a new one (the upsert in the source). -/
def setRec : Store → Ident → RateLimitRecord → Store
  | [], j, r => [(j, r)]
  | (i, r0) :: rest, j, r => if i = j then (j, r) :: rest else (i, r0) :: setRec rest j r

def msPerHour : Nat := 3600000

def msPerDay : Nat := 86400000

/-- Midnight of the current day (today.setHours(0,0,0,0) on a UTC clock). -/
def startOfDay (now : Nat) : Nat := now - now % msPerDay

/-- Start of the next day: the daily reset target in both paths. -/
def tomorrow (now : Nat) : Nat := startOfDay now + msPerDay

/-- Top of the next hour: the hourly reset target of the durable path
(nextHour.setHours(getHours()+1, 0, 0, 0)). -/
def nextHourTop (now : Nat) : Nat := now - now % msPerHour + msPerHour

/-- One hour from now: the hourly reset target of the fallback path
(nextHour = now + 60 * 60 * 1000). -/
def nextHourFB (now : Nat) : Nat := now + msPerHour

/-- The two configured ceilings (constructor fields MAX_MESSAGES_PER_DAY and
MAX_MESSAGES_PER_HOUR; 200 and 50 in the source, injected here so that the
concrete scenarios can pin other values). -/
structure RateLimitConfig where
  maxMessagesPerDay : Nat
  maxMessagesPerHour : Nat
deriving DecidableEq, Repr

/-- Window resets, exactly as both paths perform them: each window resets
independently when its stored reset time is strictly earlier than now, the
count going to 0 and the reset time advancing to the given target. -/
def applyResets (now : Nat) (r : RateLimitRecord) (dTo hTo : Nat) : RateLimitRecord :=
  let r1 := if r.dailyResetTime < now then
    { r with dailyCount := 0, dailyResetTime := dTo } else r
  if r1.hourlyResetTime < now then
    { r1 with hourlyCount := 0, hourlyResetTime := hTo } else r1

/-- Evaluate one identifier inside a check: fetch or lazily create its
record (counts 0, reset times at the targets), apply the window resets, and
write the result back.  Instantiated with the durable targets this is the
findOneAndUpdate upsert plus the reset block of checkRateLimit; with the
fallback targets it is the corresponding block of checkRateLimitFallback. -/
def checkOne (now dTo hTo : Nat) (st : Store) (id : Ident) : RateLimitRecord × Store :=
  let r0 := (getRec st id).getD ⟨0, 0, dTo, hTo⟩
  let r1 := applyResets now r0 dTo hTo
  (r1, setRec st id r1)

/-- Which window triggered a denial (the source strings daily_limit and
hourly_limit). -/
inductive LimitWindow where
  | daily
  | hourly
deriving DecidableEq, Repr

/-- The denial-or-maxima loop shared by both check paths: walk the
identifiers in order, track the highest daily and hourly counts seen, and
break on the first identifier whose count has reached a ceiling. -/
def checkLoop (cfg : RateLimitConfig) (now dTo hTo : Nat) :
    List Ident → Store → Nat → Nat → Option (Ident × LimitWindow) × Nat × Nat × Store
  | [], st, maxD, maxH => (none, maxD, maxH, st)
  | id :: rest, st, maxD, maxH =>
    let s := checkOne now dTo hTo st id
    let maxD1 := if maxD < s.1.dailyCount then s.1.dailyCount else maxD
    let maxH1 := if maxH < s.1.hourlyCount then s.1.hourlyCount else maxH
    if cfg.maxMessagesPerDay ≤ s.1.dailyCount then
      (some (id, LimitWindow.daily), maxD1, maxH1, s.2)
    else if cfg.maxMessagesPerHour ≤ s.1.hourlyCount then
      (some (id, LimitWindow.hourly), maxD1, maxH1, s.2)
    else checkLoop cfg now dTo hTo rest s.2 maxD1 maxH1

/-- The RateDecision returned by a check. -/
structure CheckOutcome where
  allowed : Bool
  reason : Option LimitWindow
  dailyCount : Nat
  hourlyCount : Nat
  dailyResetTime : Nat
  hourlyResetTime : Nat
  exceededBy : Option IdKind
deriving DecidableEq, Repr

/-- A check over the identifier list, generic in the two reset targets
(the only point where the durable and the fallback check differ). -/
def checkGen (cfg : RateLimitConfig) (now dTo hTo : Nat) (ids : List Ident) (st : Store) :
    CheckOutcome × Store :=
  match checkLoop cfg now dTo hTo ids st 0 0 with
  | (some (id, w), maxD, maxH, st1) =>
    (⟨false, some w, maxD, maxH, dTo, hTo, some id.kind⟩, st1)
  | (none, maxD, maxH, st1) =>
    (⟨true, none, maxD, maxH, dTo, hTo, none⟩, st1)

/-- RateLimiter.checkRateLimit with the database available: daily target is
the start of the next day, hourly target the top of the next hour. -/
def checkRateLimitDB (cfg : RateLimitConfig) (now : Nat) (ids : List Ident) (db : Store) :
    CheckOutcome × Store :=
  checkGen cfg now (tomorrow now) (nextHourTop now) ids db

/-- RateLimiter.checkRateLimitFallback: identical loop, but the hourly
target is one hour after now. -/
def checkRateLimitFallback (cfg : RateLimitConfig) (now : Nat) (ids : List Ident) (st : Store) :
    CheckOutcome × Store :=
  checkGen cfg now (tomorrow now) (nextHourFB now) ids st

/-- One durable increment (the findOneAndUpdate with $inc and upsert in
incrementCount): an existing record has both counts incremented with no
reset check; an absent record is created with counts 1 and the reset
targets from $setOnInsert. -/
def incrementOneDB (now : Nat) (db : Store) (id : Ident) : RateLimitRecord × Store :=
  match getRec db id with
  | some r =>
    let r1 := { r with dailyCount := r.dailyCount + 1, hourlyCount := r.hourlyCount + 1 }
    (r1, setRec db id r1)
  | none =>
    let r1 : RateLimitRecord := ⟨1, 1, tomorrow now, nextHourTop now⟩
    (r1, setRec db id r1)

/-- The increment loop of incrementCount: every identifier is incremented
(no break), and the highest post-increment counts are tracked. -/
def incrementLoopDB (now : Nat) : List Ident → Store → Nat → Nat → Nat × Nat × Store
  | [], db, maxD, maxH => (maxD, maxH, db)
  | id :: rest, db, maxD, maxH =>
    let s := incrementOneDB now db id
    let maxD1 := if maxD < s.1.dailyCount then s.1.dailyCount else maxD
    let maxH1 := if maxH < s.1.hourlyCount then s.1.hourlyCount else maxH
    incrementLoopDB now rest s.2 maxD1 maxH1

/-- RateLimiter.incrementCount with the database available. -/
def incrementCountDB (now : Nat) (ids : List Ident) (db : Store) : (Nat × Nat) × Store :=
  match incrementLoopDB now ids db 0 0 with
  | (maxD, maxH, db1) => ((maxD, maxH), db1)

/-- One fallback increment (incrementCountFallback body): fetch or create,
apply the window resets, then increment both counts and store. -/
def incrementOneFB (now : Nat) (st : Store) (id : Ident) : RateLimitRecord × Store :=
  let r0 := (getRec st id).getD ⟨0, 0, tomorrow now, nextHourFB now⟩
  let r1 := applyResets now r0 (tomorrow now) (nextHourFB now)
  let r2 := { r1 with dailyCount := r1.dailyCount + 1, hourlyCount := r1.hourlyCount + 1 }
  (r2, setRec st id r2)

/-- The increment loop of incrementCountFallback. -/
def incrementLoopFB (now : Nat) : List Ident → Store → Nat → Nat → Nat × Nat × Store
  | [], st, maxD, maxH => (maxD, maxH, st)
  | id :: rest, st, maxD, maxH =>
    let s := incrementOneFB now st id
    let maxD1 := if maxD < s.1.dailyCount then s.1.dailyCount else maxD
    let maxH1 := if maxH < s.1.hourlyCount then s.1.hourlyCount else maxH
    incrementLoopFB now rest s.2 maxD1 maxH1

/-- RateLimiter.incrementCountFallback. -/
def incrementCountFallback (now : Nat) (ids : List Ident) (st : Store) : (Nat × Nat) × Store :=
  match incrementLoopFB now ids st 0 0 with
  | (maxD, maxH, st1) => ((maxD, maxH), st1)

/-- Browser attributes of the request (userInfo.browser, produced by the
user-agent parser; each field may be missing). -/
structure BrowserInfo where
  name : Option String
  version : Option String
  os : Option String
deriving DecidableEq, Repr

/-- Coarse geolocation attributes of the request (userInfo.geolocation,
null when the geo lookup fails). -/
structure GeoInfo where
  country : Option String
  city : Option String
deriving DecidableEq, Repr

/-- The userInfo payload as consumed by generateFingerprint: the browser
and geolocation sub-objects may each be absent. -/
structure UserInfo where
  browser : Option BrowserInfo
  geolocation : Option GeoInfo
deriving DecidableEq, Repr

/-- The string hashed by generateFingerprint: the five fields concatenated
in source order, each missing field contributing the empty string
(userInfo.browser?.name || '' and so on). -/
def fingerprintInput (u : UserInfo) : String :=
  ((u.browser.bind BrowserInfo.name).getD "") ++
    ((u.browser.bind BrowserInfo.version).getD "") ++
    ((u.browser.bind BrowserInfo.os).getD "") ++
    ((u.geolocation.bind GeoInfo.country).getD "") ++
    ((u.geolocation.bind GeoInfo.city).getD "")

/-- RateLimiter.generateFingerprint: null input gives null; otherwise the
md5 hex digest of the concatenated fields.  The digest itself is an opaque
collision-prone string function and is passed in as a parameter; nothing
proved below depends on its values. -/
def generateFingerprint (digest : String → String) : Option UserInfo → Option String
  | none => none
  | some u => some (digest (fingerprintInput u))

/-- The identifier list built inline by checkRateLimit, incrementCount and
their fallbacks: ip, then userToken, then fingerprint, keeping only the
truthy keys (filter id.key drops null and the empty string). -/
def resolveIdentifiers (ip : String) (userTok : Option String) (fp : Option String) :
    List Ident :=
  (if ip = "" then [] else [⟨IdKind.ip, ip⟩]) ++
    (match userTok with
      | some t => if t = "" then [] else [⟨IdKind.userToken, t⟩]
      | none => []) ++
    (match fp with
      | some f => if f = "" then [] else [⟨IdKind.fingerprint, f⟩]
      | none => [])

/-- The rate-limit part of the POST /api/chat response. -/
structure ChatRateResult where
  allowed : Bool
  reason : Option LimitWindow
  dailyCount : Nat
  hourlyCount : Nat
deriving DecidableEq, Repr

/-- The POST /api/chat control flow around the limiter (src/unnamed/part_001):
checkRateLimit first; on denial respond 429 with the check counts and do
not increment; on success call incrementCount and respond with the
post-increment counts. -/
def handleChatRate (cfg : RateLimitConfig) (now : Nat) (ids : List Ident) (db : Store) :
    ChatRateResult × Store :=
  let c := checkRateLimitDB cfg now ids db
  if c.1.allowed then
    let inc := incrementCountDB now ids c.2
    (⟨true, none, inc.1.1, inc.1.2⟩, inc.2)
  else
    (⟨false, c.1.reason, c.1.dailyCount, c.1.hourlyCount⟩, c.2)

/-- The durable check loop with per-identifier store failures: the try /
catch around the body of the for loop in checkRateLimit turns a throwing
findOneAndUpdate into a continue, skipping that identifier entirely. -/
def checkLoopErr (cfg : RateLimitConfig) (now dTo hTo : Nat) (fails : Ident → Bool) :
    List Ident → Store → Nat → Nat → Option (Ident × LimitWindow) × Nat × Nat × Store
  | [], st, maxD, maxH => (none, maxD, maxH, st)
  | id :: rest, st, maxD, maxH =>
    if fails id then checkLoopErr cfg now dTo hTo fails rest st maxD maxH
    else
      let s := checkOne now dTo hTo st id
      let maxD1 := if maxD < s.1.dailyCount then s.1.dailyCount else maxD
      let maxH1 := if maxH < s.1.hourlyCount then s.1.hourlyCount else maxH
      if cfg.maxMessagesPerDay ≤ s.1.dailyCount then
        (some (id, LimitWindow.daily), maxD1, maxH1, s.2)
      else if cfg.maxMessagesPerHour ≤ s.1.hourlyCount then
        (some (id, LimitWindow.hourly), maxD1, maxH1, s.2)
      else checkLoopErr cfg now dTo hTo fails rest s.2 maxD1 maxH1

/-- RateLimiter.checkRateLimit when some per-identifier reads throw. -/
def checkRateLimitDBErr (cfg : RateLimitConfig) (now : Nat) (fails : Ident → Bool)
    (ids : List Ident) (db : Store) : CheckOutcome × Store :=
  match checkLoopErr cfg now (tomorrow now) (nextHourTop now) fails ids db 0 0 with
  | (some (id, w), maxD, maxH, db1) =>
    (⟨false, some w, maxD, maxH, tomorrow now, nextHourTop now, some id.kind⟩, db1)
  | (none, maxD, maxH, db1) =>
    (⟨true, none, maxD, maxH, tomorrow now, nextHourTop now, none⟩, db1)

/-- The two counter stores owned by the limiter: the durable collection and
the process-local fallbackStore Map. -/
structure LimiterState where
  db : Store
  fb : Store
deriving DecidableEq, Repr

/-- The dispatch at the top of checkRateLimit: when ensureDatabaseConnection
fails the fallback path is used on the in-memory store, otherwise the
durable path runs; either way a CheckOutcome is returned, never an error. -/
def checkRateLimitTop (dbReady : Bool) (cfg : RateLimitConfig) (now : Nat)
    (ids : List Ident) (ls : LimiterState) : CheckOutcome × LimiterState :=
  if dbReady then
    let c := checkRateLimitDB cfg now ids ls.db
    (c.1, ⟨c.2, ls.fb⟩)
  else
    let c := checkRateLimitFallback cfg now ids ls.fb
    (c.1, ⟨ls.db, c.2⟩)

/-- The matching dispatch at the top of incrementCount. -/
def incrementCountTop (dbReady : Bool) (now : Nat) (ids : List Ident) (ls : LimiterState) :
    (Nat × Nat) × LimiterState :=
  if dbReady then
    let c := incrementCountDB now ids ls.db
    (c.1, ⟨c.2, ls.fb⟩)
  else
    let c := incrementCountFallback now ids ls.fb
    (c.1, ⟨ls.db, c.2⟩)

/-- A user profile document (src/models/User.js), restricted to the fields
findOrCreateByToken reads or writes: the unique token key, the first and
last seen network address, and the last-activity time. -/
structure UserProfile where
  token : String
  firstSeenIP : Option String
  lastSeenIP : Option String
  lastActivity : Nat
deriving DecidableEq, Repr

/-- The findOne query on token.  Every stored profile carries a string
token (the unique index), so a query with a null or undefined token
matches no stored profile. -/
def findUserByToken (q : Option String) (users : List UserProfile) : Option UserProfile :=
  match q with
  | none => none
  | some t => users.find? (fun u => u.token == t)

/-- Persist an updated profile in place of the one holding the same token. -/
def replaceUser (users : List UserProfile) (t : String) (u1 : UserProfile) :
    List UserProfile :=
  users.map (fun u => if u.token = t then u1 else u)

/-- UserSchema.statics.findOrCreateByToken: find by token and update the
last seen address and activity; otherwise create a profile keyed by the
supplied token, or by the freshly minted random token when none (or an
empty one) was supplied.  The save runs against the unique token index: a
duplicate-key conflict (error 11000) is caught by re-querying findOne on
the ORIGINAL token argument — the existing profile is returned when that
query finds one, and the error is rethrown (none here) when it does not.
In this single-store model the collection is unchanged between the first
query and the retry, so the retry finds a profile exactly when the first
query did.  Returns the profile, the isNew flag and the updated
collection, or none when the error propagates. -/
def findOrCreateByToken (now : Nat) (freshTok : String) (tok : Option String)
    (ip : Option String) (users : List UserProfile) :
    Option ((UserProfile × Bool) × List UserProfile) :=
  match findUserByToken tok users with
  | some u =>
    let u1 := { u with
      lastSeenIP := match ip with
        | some s => if s = "" then u.lastSeenIP else some s
        | none => u.lastSeenIP,
      lastActivity := now }
    some ((u1, false), replaceUser users u.token u1)
  | none =>
    let newToken := match tok with
      | some t => if t = "" then freshTok else t
      | none => freshTok
    if users.any (fun u => u.token == newToken) then
      match findUserByToken tok users with
      | some u => some ((u, false), users)
      | none => none
    else
      let nu : UserProfile := ⟨newToken, ip, ip, now⟩
      some ((nu, true), nu :: users)

/-- Number of stored profiles holding a given token. -/
def countToken (users : List UserProfile) (t : String) : Nat :=
  (users.map UserProfile.token).count t

/-- Modelled from the spec: the Quota Cache of section 4.5 is absent from
the source tree (only the Rate Limiter itself appears there); its key is
the pair of network address and client token. -/
structure CacheKey where
  ip : String
  token : Option String
deriving DecidableEq, Repr

/-- Modelled from the spec: a cache entry stores the time the check result
was memoized together with the result, so entries can expire by elapsed
time. -/
abbrev QuotaCache := List (CacheKey × Nat × CheckOutcome)

/-- Look up the entry memoized for a key. -/
def getCached : QuotaCache → CacheKey → Option (Nat × CheckOutcome)
  | [], _ => none
  | (k0, e) :: rest, k => if k0 = k then some e else getCached rest k

/-- Modelled from the spec: expired entries are lazily dropped on each
access; an entry is live while less than ttl has elapsed since it was
stored. -/
def dropExpired (now ttl : Nat) (cache : QuotaCache) : QuotaCache :=
  cache.filter (fun e => now < e.2.1 + ttl)

/-- The identifiers a request context resolves to: the cache key carries
the network address and token, and the fingerprint is a fixed function of
the request context (fingerprint generation is deterministic). -/
def reqIds (fp : CacheKey → Option String) (k : CacheKey) : List Ident :=
  resolveIdentifiers k.ip k.token (fp k)

/-- The durable counter store together with the process-local quota cache
in front of its check path. -/
structure QuotaState where
  db : Store
  cache : QuotaCache
deriving DecidableEq, Repr

/-- Modelled from the spec: the memoized check path.  A live cached result
for the key is served as is; otherwise the Rate Limiter check runs and its
result is memoized at the current time. -/
def cachedCheck (cfg : RateLimitConfig) (ttl now : Nat) (fp : CacheKey → Option String)
    (k : CacheKey) (st : QuotaState) : CheckOutcome × QuotaState :=
  let live := dropExpired now ttl st.cache
  match getCached live k with
  | some e => (e.2, ⟨st.db, live⟩)
  | none =>
    let c := checkRateLimitDB cfg now (reqIds fp k) st.db
    (c.1, ⟨c.2, (k, now, c.1) :: live⟩)

/-- Two identifier sets overlap when they share an identifier. -/
def overlapIdents (a b : List Ident) : Bool :=
  a.any (fun i => b.contains i)

/-- Modelled from the spec: the record path increments the counters for the
request identifiers and immediately invalidates every cache entry whose
identifiers overlap the recorded ones (exact write-path invalidation, not
time-only expiry). -/
def recordReq (now : Nat) (fp : CacheKey → Option String) (k : CacheKey)
    (st : QuotaState) : (Nat × Nat) × QuotaState :=
  let c := incrementCountDB now (reqIds fp k) st.db
  (c.1, ⟨c.2, st.cache.filter (fun e => !overlapIdents (reqIds fp e.1) (reqIds fp k))⟩)

/-! ### Effective window counts

The count an identifier presents to the decision logic at a given instant:
its stored count unless that window has expired (in which case the reset
would zero it), and zero for an identifier with no record yet. -/

def effDaily (now : Nat) (st : Store) (id : Ident) : Nat :=
  match getRec st id with
  | none => 0
  | some r => if r.dailyResetTime < now then 0 else r.dailyCount

def effHourly (now : Nat) (st : Store) (id : Ident) : Nat :=
  match getRec st id with
  | none => 0
  | some r => if r.hourlyResetTime < now then 0 else r.hourlyCount

/-- The stored daily count of an identifier, zero when it has no record. -/
def rawDaily (st : Store) (id : Ident) : Nat :=
  match getRec st id with
  | none => 0
  | some r => r.dailyCount

/-- The stored hourly count of an identifier, zero when it has no record. -/
def rawHourly (st : Store) (id : Ident) : Nat :=
  match getRec st id with
  | none => 0
  | some r => r.hourlyCount

/-- A sequence of record calls for one identifier (repeated
incrementCount invocations within a single window). -/
def recordNDB (now : Nat) (id : Ident) : Nat → Store → Store
  | 0, db => db
  | n + 1, db => recordNDB now id n (incrementCountDB now [id] db).2

/-- Concrete scenario A of the spec: one network identifier, daily limit 2,
hourly limit 50, all three requests inside the same windows. -/
def scenarioAIdent : Ident := ⟨IdKind.ip, "203.0.113.7"⟩

def scenarioACfg : RateLimitConfig := ⟨2, 50⟩

def scenarioAStep1 : ChatRateResult × Store := handleChatRate scenarioACfg 0 [scenarioAIdent] []

def scenarioAStep2 : ChatRateResult × Store :=
  handleChatRate scenarioACfg 0 [scenarioAIdent] scenarioAStep1.2

def scenarioAStep3 : ChatRateResult × Store :=
  handleChatRate scenarioACfg 0 [scenarioAIdent] scenarioAStep2.2

/-- Every memoized result equals the result a fresh Rate Limiter check
would produce against the current counter store: no cached answer is stale
with respect to any recorded request. -/
def CacheCoherent (cfg : RateLimitConfig) (now : Nat) (fp : CacheKey → Option String)
    (st : QuotaState) : Prop :=
  ∀ e ∈ st.cache, e.2.2 = (checkRateLimitDB cfg now (reqIds fp e.1) st.db).1

/-! ### Store primitives -/

theorem getRec_setRec_self (st : Store) (id : Ident) (r : RateLimitRecord) :
    getRec (setRec st id r) id = some r := by
  induction st with
  | nil => simp [setRec, getRec]
  | cons hd tl ih =>
    obtain ⟨i, r0⟩ := hd
    by_cases h : i = id
    · simp [setRec, h, getRec]
    · simp [setRec, h, getRec, ih]

theorem getRec_setRec_ne (st : Store) (id j : Ident) (r : RateLimitRecord) (h : id ≠ j) :
    getRec (setRec st id r) j = getRec st j := by
  induction st with
  | nil => simp [setRec, getRec, fun hc : id = j => h hc]
  | cons hd tl ih =>
    obtain ⟨i, r0⟩ := hd
    by_cases hij : i = id
    · subst hij
      simp [setRec, getRec, fun hc : i = j => h hc]
    · simp [setRec, hij, getRec, ih]

theorem setRec_self_of_getRec (st : Store) (id : Ident) (r : RateLimitRecord)
    (h : getRec st id = some r) : setRec st id r = st := by
  induction st with
  | nil => simp [getRec] at h
  | cons hd tl ih =>
    obtain ⟨i, r0⟩ := hd
    by_cases hij : i = id
    · subst hij
      simp [getRec] at h
      simp [setRec, h]
    · simp [getRec, hij] at h
      simp [setRec, hij, ih h]

theorem applyResets_dailyCount (now : Nat) (r : RateLimitRecord) (dTo hTo : Nat) :
    (applyResets now r dTo hTo).dailyCount = if r.dailyResetTime < now then 0 else r.dailyCount := by
  simp only [applyResets]
  split_ifs <;> rfl

theorem applyResets_hourlyCount (now : Nat) (r : RateLimitRecord) (dTo hTo : Nat) :
    (applyResets now r dTo hTo).hourlyCount =
      if r.hourlyResetTime < now then 0 else r.hourlyCount := by
  simp only [applyResets]
  split_ifs <;> rfl

theorem applyResets_dailyResetTime (now : Nat) (r : RateLimitRecord) (dTo hTo : Nat) :
    (applyResets now r dTo hTo).dailyResetTime =
      if r.dailyResetTime < now then dTo else r.dailyResetTime := by
  simp only [applyResets]
  split_ifs <;> rfl

theorem applyResets_hourlyResetTime (now : Nat) (r : RateLimitRecord) (dTo hTo : Nat) :
    (applyResets now r dTo hTo).hourlyResetTime =
      if r.hourlyResetTime < now then hTo else r.hourlyResetTime := by
  simp only [applyResets]
  split_ifs <;> rfl

theorem checkOne_snd (now dTo hTo : Nat) (st : Store) (id : Ident) :
    (checkOne now dTo hTo st id).2 =
      setRec st id (applyResets now ((getRec st id).getD ⟨0, 0, dTo, hTo⟩) dTo hTo) := rfl

theorem checkOne_dailyCount (now dTo hTo : Nat) (st : Store) (id : Ident) :
    (checkOne now dTo hTo st id).1.dailyCount = effDaily now st id := by
  unfold checkOne effDaily
  cases h : getRec st id with
  | none => simp [h, applyResets_dailyCount]
  | some r => simp [h, applyResets_dailyCount]

theorem checkOne_hourlyCount (now dTo hTo : Nat) (st : Store) (id : Ident) :
    (checkOne now dTo hTo st id).1.hourlyCount = effHourly now st id := by
  unfold checkOne effHourly
  cases h : getRec st id with
  | none => simp [h, applyResets_hourlyCount]
  | some r => simp [h, applyResets_hourlyCount]

theorem effDaily_checkOne (now dTo hTo : Nat) (st : Store) (id j : Ident) :
    effDaily now (checkOne now dTo hTo st id).2 j = effDaily now st j := by
  by_cases hj : id = j
  · subst hj
    rw [checkOne_snd]
    unfold effDaily
    rw [getRec_setRec_self]
    cases h : getRec st id with
    | none =>
      simp only [h, Option.getD_none]
      rw [applyResets_dailyCount]
      simp only [applyResets_dailyResetTime]
      split_ifs <;> rfl
    | some r =>
      simp only [h, Option.getD_some]
      rw [applyResets_dailyCount]
      simp only [applyResets_dailyResetTime]
      split_ifs <;> simp_all
  · rw [checkOne_snd]
    unfold effDaily
    rw [getRec_setRec_ne _ _ _ _ hj]

theorem effHourly_checkOne (now dTo hTo : Nat) (st : Store) (id j : Ident) :
    effHourly now (checkOne now dTo hTo st id).2 j = effHourly now st j := by
  by_cases hj : id = j
  · subst hj
    rw [checkOne_snd]
    unfold effHourly
    rw [getRec_setRec_self]
    cases h : getRec st id with
    | none =>
      simp only [h, Option.getD_none]
      rw [applyResets_hourlyCount]
      simp only [applyResets_hourlyResetTime]
      split_ifs <;> rfl
    | some r =>
      simp only [h, Option.getD_some]
      rw [applyResets_hourlyCount]
      simp only [applyResets_hourlyResetTime]
      split_ifs <;> simp_all
  · rw [checkOne_snd]
    unfold effHourly
    rw [getRec_setRec_ne _ _ _ _ hj]

theorem if_lt_max (a b : Nat) : (if a < b then b else a) = max a b := by
  rw [Nat.max_def]
  split_ifs <;> omega

theorem effDaily_congr (now : Nat) (st1 st2 : Store) (j : Ident)
    (h : getRec st1 j = getRec st2 j) : effDaily now st1 j = effDaily now st2 j := by
  unfold effDaily
  rw [h]

theorem effHourly_congr (now : Nat) (st1 st2 : Store) (j : Ident)
    (h : getRec st1 j = getRec st2 j) : effHourly now st1 j = effHourly now st2 j := by
  unfold effHourly
  rw [h]

/-! ### The check loop -/

theorem effDaily_checkLoop (cfg : RateLimitConfig) (now dTo hTo : Nat) :
    ∀ (ids : List Ident) (st : Store) (maxD maxH : Nat) (j : Ident),
      effDaily now (checkLoop cfg now dTo hTo ids st maxD maxH).2.2.2 j = effDaily now st j := by
  intro ids
  induction ids with
  | nil => intro st maxD maxH j; rfl
  | cons id rest ih =>
    intro st maxD maxH j
    simp only [checkLoop, if_lt_max]
    split_ifs with h1 h2
    · exact effDaily_checkOne now dTo hTo st id j
    · exact effDaily_checkOne now dTo hTo st id j
    · rw [ih, effDaily_checkOne]

theorem effHourly_checkLoop (cfg : RateLimitConfig) (now dTo hTo : Nat) :
    ∀ (ids : List Ident) (st : Store) (maxD maxH : Nat) (j : Ident),
      effHourly now (checkLoop cfg now dTo hTo ids st maxD maxH).2.2.2 j = effHourly now st j := by
  intro ids
  induction ids with
  | nil => intro st maxD maxH j; rfl
  | cons id rest ih =>
    intro st maxD maxH j
    simp only [checkLoop, if_lt_max]
    split_ifs with h1 h2
    · exact effHourly_checkOne now dTo hTo st id j
    · exact effHourly_checkOne now dTo hTo st id j
    · rw [ih, effHourly_checkOne]

theorem getRec_checkLoop_not_mem (cfg : RateLimitConfig) (now dTo hTo : Nat) :
    ∀ (ids : List Ident) (st : Store) (maxD maxH : Nat) (j : Ident), j ∉ ids →
      getRec (checkLoop cfg now dTo hTo ids st maxD maxH).2.2.2 j = getRec st j := by
  intro ids
  induction ids with
  | nil => intro st maxD maxH j _; rfl
  | cons id rest ih =>
    intro st maxD maxH j hj
    have hne : id ≠ j := fun hc => hj (hc ▸ List.mem_cons_self id rest)
    have hrest : j ∉ rest := fun hc => hj (List.mem_cons_of_mem id hc)
    simp only [checkLoop, if_lt_max]
    split_ifs with h1 h2
    · rw [checkOne_snd, getRec_setRec_ne _ _ _ _ hne]
    · rw [checkOne_snd, getRec_setRec_ne _ _ _ _ hne]
    · rw [ih _ _ _ _ hrest, checkOne_snd, getRec_setRec_ne _ _ _ _ hne]

theorem checkLoop_none_iff (cfg : RateLimitConfig) (now dTo hTo : Nat) :
    ∀ (ids : List Ident) (st : Store) (maxD maxH : Nat),
      (checkLoop cfg now dTo hTo ids st maxD maxH).1 = none ↔
        ∀ id ∈ ids, effDaily now st id < cfg.maxMessagesPerDay ∧
          effHourly now st id < cfg.maxMessagesPerHour := by
  intro ids
  induction ids with
  | nil => intro st maxD maxH; simp [checkLoop]
  | cons id rest ih =>
    intro st maxD maxH
    simp only [checkLoop, if_lt_max, checkOne_dailyCount, checkOne_hourlyCount]
    split_ifs with h1 h2
    · simp only [List.mem_cons]
      constructor
      · intro hc; exact absurd hc (by simp)
      · intro hall
        exact absurd ((hall id (Or.inl rfl)).1) (by omega)
    · simp only [List.mem_cons]
      constructor
      · intro hc; exact absurd hc (by simp)
      · intro hall
        exact absurd ((hall id (Or.inl rfl)).2) (by omega)
    · rw [ih]
      simp only [effDaily_checkOne, effHourly_checkOne, List.mem_cons]
      constructor
      · intro hall j hj
        rcases hj with hj | hj
        · subst hj; exact ⟨by omega, by omega⟩
        · exact hall j hj
      · intro hall j hj
        exact hall j (Or.inr hj)

theorem checkLoop_none_counts (cfg : RateLimitConfig) (now dTo hTo : Nat) :
    ∀ (ids : List Ident) (st : Store) (maxD maxH : Nat),
      (checkLoop cfg now dTo hTo ids st maxD maxH).1 = none →
        (checkLoop cfg now dTo hTo ids st maxD maxH).2.1 =
          ids.foldl (fun a id => max a (effDaily now st id)) maxD ∧
        (checkLoop cfg now dTo hTo ids st maxD maxH).2.2.1 =
          ids.foldl (fun a id => max a (effHourly now st id)) maxH := by
  intro ids
  induction ids with
  | nil => intro st maxD maxH _; exact ⟨rfl, rfl⟩
  | cons id rest ih =>
    intro st maxD maxH hnone
    simp only [checkLoop, if_lt_max, checkOne_dailyCount, checkOne_hourlyCount] at hnone ⊢
    split_ifs at hnone ⊢ with h1 h2
    have hD : (fun (a : Nat) (j : Ident) =>
        max a (effDaily now (checkOne now dTo hTo st id).2 j)) =
        (fun (a : Nat) (j : Ident) => max a (effDaily now st j)) := by
      funext a j
      rw [effDaily_checkOne]
    have hH : (fun (a : Nat) (j : Ident) =>
        max a (effHourly now (checkOne now dTo hTo st id).2 j)) =
        (fun (a : Nat) (j : Ident) => max a (effHourly now st j)) := by
      funext a j
      rw [effHourly_checkOne]
    have hmain := ih (checkOne now dTo hTo st id).2
      (max maxD (effDaily now st id)) (max maxH (effHourly now st id)) hnone
    rw [hD, hH] at hmain
    simpa [List.foldl_cons] using hmain

theorem checkLoop_first (cfg : RateLimitConfig) (now dTo hTo : Nat) :
    ∀ (pre : List Ident) (v : Ident) (post : List Ident) (st : Store) (maxD maxH : Nat),
      (∀ id ∈ pre, effDaily now st id < cfg.maxMessagesPerDay ∧
        effHourly now st id < cfg.maxMessagesPerHour) →
      (cfg.maxMessagesPerDay ≤ effDaily now st v ∨
        cfg.maxMessagesPerHour ≤ effHourly now st v) →
      (∃ w, (checkLoop cfg now dTo hTo (pre ++ v :: post) st maxD maxH).1 = some (v, w)) ∧
      (∀ j, j ∉ pre → j ≠ v →
        getRec (checkLoop cfg now dTo hTo (pre ++ v :: post) st maxD maxH).2.2.2 j =
          getRec st j) := by
  intro pre
  induction pre with
  | nil =>
    intro v post st maxD maxH _ hv
    simp only [List.nil_append, checkLoop, if_lt_max, checkOne_dailyCount, checkOne_hourlyCount]
    split_ifs with h1 h2
    · refine ⟨⟨LimitWindow.daily, rfl⟩, ?_⟩
      intro j _ hne
      rw [checkOne_snd, getRec_setRec_ne _ _ _ _ (fun hc => hne hc.symm)]
    · refine ⟨⟨LimitWindow.hourly, rfl⟩, ?_⟩
      intro j _ hne
      rw [checkOne_snd, getRec_setRec_ne _ _ _ _ (fun hc => hne hc.symm)]
    · rcases hv with hv | hv
      · exact absurd hv h1
      · exact absurd hv h2
  | cons p pre ih =>
    intro v post st maxD maxH hpre hv
    have hp := hpre p (List.mem_cons_self p pre)
    simp only [List.cons_append, checkLoop, if_lt_max, checkOne_dailyCount, checkOne_hourlyCount]
    split_ifs with h1 h2
    · exact absurd h1 (by omega)
    · exact absurd h2 (by omega)
    · have hpre2 : ∀ id ∈ pre,
          effDaily now (checkOne now dTo hTo st p).2 id < cfg.maxMessagesPerDay ∧
          effHourly now (checkOne now dTo hTo st p).2 id < cfg.maxMessagesPerHour := by
        intro i hi
        rw [effDaily_checkOne, effHourly_checkOne]
        exact hpre i (List.mem_cons_of_mem p hi)
      have hv2 : cfg.maxMessagesPerDay ≤ effDaily now (checkOne now dTo hTo st p).2 v ∨
          cfg.maxMessagesPerHour ≤ effHourly now (checkOne now dTo hTo st p).2 v := by
        rw [effDaily_checkOne, effHourly_checkOne]
        exact hv
      obtain ⟨hw, hst⟩ := ih v post (checkOne now dTo hTo st p).2
        (max maxD (effDaily now st p)) (max maxH (effHourly now st p)) hpre2 hv2
      refine ⟨hw, ?_⟩
      intro j hj hne
      have hjpre : j ∉ pre := fun hc => hj (List.mem_cons_of_mem p hc)
      have hjp : p ≠ j := fun hc => hj (hc ▸ List.mem_cons_self p pre)
      simp only [List.append_eq]
      rw [hst j hjpre hne, checkOne_snd, getRec_setRec_ne _ _ _ _ hjp]

theorem checkLoop_agree (cfg : RateLimitConfig) (now dTo1 hTo1 dTo2 hTo2 : Nat) :
    ∀ (ids : List Ident) (st1 st2 : Store) (maxD maxH : Nat),
      (∀ j ∈ ids, effDaily now st1 j = effDaily now st2 j) →
      (∀ j ∈ ids, effHourly now st1 j = effHourly now st2 j) →
      (checkLoop cfg now dTo1 hTo1 ids st1 maxD maxH).1 =
        (checkLoop cfg now dTo2 hTo2 ids st2 maxD maxH).1 ∧
      (checkLoop cfg now dTo1 hTo1 ids st1 maxD maxH).2.1 =
        (checkLoop cfg now dTo2 hTo2 ids st2 maxD maxH).2.1 ∧
      (checkLoop cfg now dTo1 hTo1 ids st1 maxD maxH).2.2.1 =
        (checkLoop cfg now dTo2 hTo2 ids st2 maxD maxH).2.2.1 := by
  intro ids
  induction ids with
  | nil => intro st1 st2 maxD maxH _ _; exact ⟨rfl, rfl, rfl⟩
  | cons id rest ih =>
    intro st1 st2 maxD maxH hD hH
    simp only [checkLoop, if_lt_max, checkOne_dailyCount, checkOne_hourlyCount,
      hD id (List.mem_cons_self id rest), hH id (List.mem_cons_self id rest)]
    split_ifs with h1 h2
    · exact ⟨rfl, rfl, rfl⟩
    · exact ⟨rfl, rfl, rfl⟩
    · have hD2 : ∀ j ∈ rest, effDaily now (checkOne now dTo1 hTo1 st1 id).2 j =
          effDaily now (checkOne now dTo2 hTo2 st2 id).2 j := by
        intro j hj
        rw [effDaily_checkOne, effDaily_checkOne, hD j (List.mem_cons_of_mem id hj)]
      have hH2 : ∀ j ∈ rest, effHourly now (checkOne now dTo1 hTo1 st1 id).2 j =
          effHourly now (checkOne now dTo2 hTo2 st2 id).2 j := by
        intro j hj
        rw [effHourly_checkOne, effHourly_checkOne, hH j (List.mem_cons_of_mem id hj)]
      exact ih _ _ _ _ hD2 hH2

/-! ### The assembled check -/

theorem checkGen_allowed_false_iff (cfg : RateLimitConfig) (now dTo hTo : Nat)
    (ids : List Ident) (st : Store) :
    (checkGen cfg now dTo hTo ids st).1.allowed = false ↔
      ∃ id ∈ ids, cfg.maxMessagesPerDay ≤ effDaily now st id ∨
        cfg.maxMessagesPerHour ≤ effHourly now st id := by
  have hiff := checkLoop_none_iff cfg now dTo hTo ids st 0 0
  unfold checkGen
  rcases hloop : checkLoop cfg now dTo hTo ids st 0 0 with ⟨o, mD, mH, st1⟩
  rw [hloop] at hiff
  cases o with
  | none =>
    dsimp only
    constructor
    · intro h
      exact absurd h (by simp)
    · rintro ⟨i, hi, hvi⟩
      have hlt := (hiff.mp rfl) i hi
      rcases hvi with hvi | hvi <;> omega
  | some p =>
    obtain ⟨v, w⟩ := p
    dsimp only
    refine ⟨fun _ => ?_, fun _ => rfl⟩
    by_contra hno
    have hall : ∀ i ∈ ids, effDaily now st i < cfg.maxMessagesPerDay ∧
        effHourly now st i < cfg.maxMessagesPerHour := by
      intro i hi
      constructor
      · by_contra hlt
        exact hno ⟨i, hi, Or.inl (by omega)⟩
      · by_contra hlt
        exact hno ⟨i, hi, Or.inr (by omega)⟩
    exact absurd (hiff.mpr hall) (by simp)

theorem checkGen_allowed_counts (cfg : RateLimitConfig) (now dTo hTo : Nat)
    (ids : List Ident) (st : Store) :
    (checkGen cfg now dTo hTo ids st).1.allowed = true →
      (checkGen cfg now dTo hTo ids st).1.dailyCount =
        ids.foldl (fun a id => max a (effDaily now st id)) 0 ∧
      (checkGen cfg now dTo hTo ids st).1.hourlyCount =
        ids.foldl (fun a id => max a (effHourly now st id)) 0 := by
  have hcounts := checkLoop_none_counts cfg now dTo hTo ids st 0 0
  unfold checkGen
  rcases hloop : checkLoop cfg now dTo hTo ids st 0 0 with ⟨o, mD, mH, st1⟩
  rw [hloop] at hcounts
  cases o with
  | none =>
    intro _
    exact hcounts rfl
  | some p =>
    obtain ⟨v, w⟩ := p
    dsimp only
    intro h
    exact absurd h (by simp)

theorem effDaily_checkGen (cfg : RateLimitConfig) (now dTo hTo : Nat)
    (ids : List Ident) (st : Store) (j : Ident) :
    effDaily now (checkGen cfg now dTo hTo ids st).2 j = effDaily now st j := by
  have hpres := effDaily_checkLoop cfg now dTo hTo ids st 0 0 j
  unfold checkGen
  rcases hloop : checkLoop cfg now dTo hTo ids st 0 0 with ⟨o, mD, mH, st1⟩
  rw [hloop] at hpres
  cases o with
  | none => exact hpres
  | some p =>
    obtain ⟨v, w⟩ := p
    exact hpres

theorem effHourly_checkGen (cfg : RateLimitConfig) (now dTo hTo : Nat)
    (ids : List Ident) (st : Store) (j : Ident) :
    effHourly now (checkGen cfg now dTo hTo ids st).2 j = effHourly now st j := by
  have hpres := effHourly_checkLoop cfg now dTo hTo ids st 0 0 j
  unfold checkGen
  rcases hloop : checkLoop cfg now dTo hTo ids st 0 0 with ⟨o, mD, mH, st1⟩
  rw [hloop] at hpres
  cases o with
  | none => exact hpres
  | some p =>
    obtain ⟨v, w⟩ := p
    exact hpres

theorem checkGen_agree (cfg : RateLimitConfig) (now dTo1 hTo1 dTo2 hTo2 : Nat)
    (ids : List Ident) (st1 st2 : Store)
    (hD : ∀ j ∈ ids, effDaily now st1 j = effDaily now st2 j)
    (hH : ∀ j ∈ ids, effHourly now st1 j = effHourly now st2 j) :
    (checkGen cfg now dTo1 hTo1 ids st1).1.allowed =
      (checkGen cfg now dTo2 hTo2 ids st2).1.allowed ∧
    (checkGen cfg now dTo1 hTo1 ids st1).1.reason =
      (checkGen cfg now dTo2 hTo2 ids st2).1.reason ∧
    (checkGen cfg now dTo1 hTo1 ids st1).1.dailyCount =
      (checkGen cfg now dTo2 hTo2 ids st2).1.dailyCount ∧
    (checkGen cfg now dTo1 hTo1 ids st1).1.hourlyCount =
      (checkGen cfg now dTo2 hTo2 ids st2).1.hourlyCount ∧
    (checkGen cfg now dTo1 hTo1 ids st1).1.exceededBy =
      (checkGen cfg now dTo2 hTo2 ids st2).1.exceededBy := by
  obtain ⟨ho, hmd, hmh⟩ := checkLoop_agree cfg now dTo1 hTo1 dTo2 hTo2 ids st1 st2 0 0 hD hH
  unfold checkGen
  rcases hloop1 : checkLoop cfg now dTo1 hTo1 ids st1 0 0 with ⟨o1, mD1, mH1, sta⟩
  rcases hloop2 : checkLoop cfg now dTo2 hTo2 ids st2 0 0 with ⟨o2, mD2, mH2, stb⟩
  rw [hloop1, hloop2] at ho hmd hmh
  dsimp only at ho hmd hmh
  subst ho hmd hmh
  cases o1 with
  | none => exact ⟨rfl, rfl, rfl, rfl, rfl⟩
  | some p =>
    obtain ⟨v, w⟩ := p
    exact ⟨rfl, rfl, rfl, rfl, rfl⟩

/-! ### The record path -/

theorem rawDaily_congr (st1 st2 : Store) (j : Ident)
    (h : getRec st1 j = getRec st2 j) : rawDaily st1 j = rawDaily st2 j := by
  unfold rawDaily
  rw [h]

theorem rawHourly_congr (st1 st2 : Store) (j : Ident)
    (h : getRec st1 j = getRec st2 j) : rawHourly st1 j = rawHourly st2 j := by
  unfold rawHourly
  rw [h]

theorem incrementOneDB_fst (now : Nat) (db : Store) (id : Ident) :
    (incrementOneDB now db id).1.dailyCount = rawDaily db id + 1 ∧
    (incrementOneDB now db id).1.hourlyCount = rawHourly db id + 1 := by
  unfold incrementOneDB rawDaily rawHourly
  cases h : getRec db id <;> simp [h]

theorem getRec_incrementOneDB_self (now : Nat) (db : Store) (id : Ident) :
    getRec (incrementOneDB now db id).2 id = some (incrementOneDB now db id).1 := by
  unfold incrementOneDB
  cases h : getRec db id <;> simp [h, getRec_setRec_self]

theorem getRec_incrementOneDB_ne (now : Nat) (db : Store) (id j : Ident) (h : id ≠ j) :
    getRec (incrementOneDB now db id).2 j = getRec db j := by
  unfold incrementOneDB
  cases hg : getRec db id <;> simp [hg] <;> rw [getRec_setRec_ne _ _ _ _ h]

theorem getRec_incrementLoopDB_not_mem (now : Nat) :
    ∀ (ids : List Ident) (db : Store) (maxD maxH : Nat) (j : Ident), j ∉ ids →
      getRec (incrementLoopDB now ids db maxD maxH).2.2 j = getRec db j := by
  intro ids
  induction ids with
  | nil => intro db maxD maxH j _; rfl
  | cons id rest ih =>
    intro db maxD maxH j hj
    have hne : id ≠ j := fun hc => hj (hc ▸ List.mem_cons_self id rest)
    have hrest : j ∉ rest := fun hc => hj (List.mem_cons_of_mem id hc)
    simp only [incrementLoopDB]
    rw [ih _ _ _ _ hrest, getRec_incrementOneDB_ne _ _ _ _ hne]

theorem rawDaily_incrementLoopDB (now : Nat) :
    ∀ (ids : List Ident) (db : Store) (maxD maxH : Nat), ids.Nodup →
      ∀ id ∈ ids,
        rawDaily (incrementLoopDB now ids db maxD maxH).2.2 id = rawDaily db id + 1 ∧
        rawHourly (incrementLoopDB now ids db maxD maxH).2.2 id = rawHourly db id + 1 := by
  intro ids
  induction ids with
  | nil => intro db maxD maxH _ id hid; cases hid
  | cons hd rest ih =>
    intro db maxD maxH hnd id hid
    have hhd : hd ∉ rest := (List.nodup_cons.mp hnd).1
    have hndr : rest.Nodup := (List.nodup_cons.mp hnd).2
    simp only [incrementLoopDB, if_lt_max]
    rcases List.mem_cons.mp hid with hid | hid
    · subst hid
      have hpres := getRec_incrementLoopDB_not_mem now rest
        (incrementOneDB now db id).2
        (max maxD (incrementOneDB now db id).1.dailyCount)
        (max maxH (incrementOneDB now db id).1.hourlyCount) id hhd
      have hselfD : rawDaily (incrementOneDB now db id).2 id =
          (incrementOneDB now db id).1.dailyCount := by
        unfold rawDaily
        rw [getRec_incrementOneDB_self]
      have hselfH : rawHourly (incrementOneDB now db id).2 id =
          (incrementOneDB now db id).1.hourlyCount := by
        unfold rawHourly
        rw [getRec_incrementOneDB_self]
      constructor
      · rw [rawDaily_congr _ _ _ hpres, hselfD]
        exact (incrementOneDB_fst now db id).1
      · rw [rawHourly_congr _ _ _ hpres, hselfH]
        exact (incrementOneDB_fst now db id).2
    · have hne : hd ≠ id := fun hc => hhd (hc ▸ hid)
      have hbase := getRec_incrementOneDB_ne now db hd id hne
      obtain ⟨hd1, hh1⟩ := ih (incrementOneDB now db hd).2
        (max maxD (incrementOneDB now db hd).1.dailyCount)
        (max maxH (incrementOneDB now db hd).1.hourlyCount) hndr id hid
      constructor
      · rw [hd1, rawDaily_congr _ _ _ hbase]
      · rw [hh1, rawHourly_congr _ _ _ hbase]

theorem incrementLoopDB_max (now : Nat) :
    ∀ (ids : List Ident) (db : Store) (maxD maxH : Nat), ids.Nodup →
      (incrementLoopDB now ids db maxD maxH).1 =
        ids.foldl (fun a id => max a (rawDaily db id + 1)) maxD ∧
      (incrementLoopDB now ids db maxD maxH).2.1 =
        ids.foldl (fun a id => max a (rawHourly db id + 1)) maxH := by
  intro ids
  induction ids with
  | nil => intro db maxD maxH _; exact ⟨rfl, rfl⟩
  | cons hd rest ih =>
    intro db maxD maxH hnd
    have hhd : hd ∉ rest := (List.nodup_cons.mp hnd).1
    have hndr : rest.Nodup := (List.nodup_cons.mp hnd).2
    simp only [incrementLoopDB, if_lt_max, (incrementOneDB_fst now db hd).1,
      (incrementOneDB_fst now db hd).2, List.foldl_cons]
    obtain ⟨hd1, hh1⟩ := ih (incrementOneDB now db hd).2
      (max maxD (rawDaily db hd + 1)) (max maxH (rawHourly db hd + 1)) hndr
    rw [hd1, hh1]
    constructor
    · apply List.foldl_ext
      intro a i hi
      have hne : hd ≠ i := fun hc => hhd (hc ▸ hi)
      rw [rawDaily_congr _ _ _ (getRec_incrementOneDB_ne now db hd i hne)]
    · apply List.foldl_ext
      intro a i hi
      have hne : hd ≠ i := fun hc => hhd (hc ▸ hi)
      rw [rawHourly_congr _ _ _ (getRec_incrementOneDB_ne now db hd i hne)]

/-! ### Time arithmetic -/

theorem lt_tomorrow (now : Nat) : now < tomorrow now := by
  unfold tomorrow startOfDay msPerDay
  have h1 : now % 86400000 < 86400000 := Nat.mod_lt _ (by norm_num)
  have h2 : now % 86400000 ≤ now := Nat.mod_le _ _
  omega

theorem lt_nextHourTop (now : Nat) : now < nextHourTop now := by
  unfold nextHourTop msPerHour
  have h1 : now % 3600000 < 3600000 := Nat.mod_lt _ (by norm_num)
  have h2 : now % 3600000 ≤ now := Nat.mod_le _ _
  omega

theorem lt_nextHourFB (now : Nat) : now < nextHourFB now := by
  unfold nextHourFB msPerHour
  omega

theorem applyResets_eq_self (now : Nat) (r : RateLimitRecord) (dTo hTo : Nat)
    (h1 : ¬ r.dailyResetTime < now) (h2 : ¬ r.hourlyResetTime < now) :
    applyResets now r dTo hTo = r := by
  unfold applyResets
  simp [h1, h2]


theorem checkOne_fst_eq (now dTo hTo : Nat) (st : Store) (id : Ident) (r : RateLimitRecord)
    (h : getRec st id = some r) :
    (checkOne now dTo hTo st id).1 = applyResets now r dTo hTo := by
  unfold checkOne
  rw [h]
  rfl

theorem checkGen_hourlyResetTime (cfg : RateLimitConfig) (now dTo hTo : Nat)
    (ids : List Ident) (st : Store) :
    (checkGen cfg now dTo hTo ids st).1.hourlyResetTime = hTo := by
  unfold checkGen
  rcases hloop : checkLoop cfg now dTo hTo ids st 0 0 with ⟨o, mD, mH, st1⟩
  cases o with
  | none => rfl
  | some p =>
    obtain ⟨v, w⟩ := p
    rfl

theorem checkGen_first (cfg : RateLimitConfig) (now dTo hTo : Nat)
    (pre : List Ident) (v : Ident) (post : List Ident) (st : Store)
    (hpre : ∀ id ∈ pre, effDaily now st id < cfg.maxMessagesPerDay ∧
      effHourly now st id < cfg.maxMessagesPerHour)
    (hv : cfg.maxMessagesPerDay ≤ effDaily now st v ∨
      cfg.maxMessagesPerHour ≤ effHourly now st v) :
    (checkGen cfg now dTo hTo (pre ++ v :: post) st).1.allowed = false ∧
    (checkGen cfg now dTo hTo (pre ++ v :: post) st).1.exceededBy = some v.kind ∧
    (∀ j, j ∉ pre → j ≠ v →
      getRec (checkGen cfg now dTo hTo (pre ++ v :: post) st).2 j = getRec st j) := by
  obtain ⟨⟨w, hw⟩, hst⟩ := checkLoop_first cfg now dTo hTo pre v post st 0 0 hpre hv
  unfold checkGen
  rcases hloop : checkLoop cfg now dTo hTo (pre ++ v :: post) st 0 0 with ⟨o, mD, mH, st1⟩
  rw [hloop] at hw
  dsimp only at hw
  subst hw
  refine ⟨rfl, rfl, ?_⟩
  intro j hj hne
  have := hst j hj hne
  rw [hloop] at this
  exact this

theorem incrementCountDB_eq (now : Nat) (ids : List Ident) (db : Store) :
    (incrementCountDB now ids db).1.1 = (incrementLoopDB now ids db 0 0).1 ∧
    (incrementCountDB now ids db).1.2 = (incrementLoopDB now ids db 0 0).2.1 ∧
    (incrementCountDB now ids db).2 = (incrementLoopDB now ids db 0 0).2.2 := by
  unfold incrementCountDB
  rcases hl : incrementLoopDB now ids db 0 0 with ⟨a, b, c⟩
  exact ⟨rfl, rfl, rfl⟩

theorem checkLoopErr_all_fail (cfg : RateLimitConfig) (now dTo hTo : Nat)
    (fails : Ident → Bool) :
    ∀ (ids : List Ident) (st : Store) (maxD maxH : Nat),
      (∀ id ∈ ids, fails id = true) →
      checkLoopErr cfg now dTo hTo fails ids st maxD maxH = (none, maxD, maxH, st) := by
  intro ids
  induction ids with
  | nil => intro st maxD maxH _; rfl
  | cons id rest ih =>
    intro st maxD maxH h
    simp only [checkLoopErr, h id (List.mem_cons_self id rest)]
    exact ih st maxD maxH (fun i hi => h i (List.mem_cons_of_mem id hi))


/-! ### Claims -/

/-- Claim C1, counterexample: with a configured daily limit of 2 and a
stored, unexpired daily count of exactly 2 — which does not strictly exceed
the limit — the check nevertheless reports denial, so denial is not
equivalent to some count strictly exceeding its limit. -/
theorem c1_counterexample :
    effDaily 0 [(⟨IdKind.ip, "1.2.3.4"⟩, ⟨2, 0, 86400000, 3600000⟩)] ⟨IdKind.ip, "1.2.3.4"⟩ = 2 ∧
    effHourly 0 [(⟨IdKind.ip, "1.2.3.4"⟩, ⟨2, 0, 86400000, 3600000⟩)] ⟨IdKind.ip, "1.2.3.4"⟩ = 0 ∧
    ¬ ((2 : Nat) > 2 ∨ (0 : Nat) > 50) ∧
    (checkRateLimitDB ⟨2, 50⟩ 0 [⟨IdKind.ip, "1.2.3.4"⟩]
      [(⟨IdKind.ip, "1.2.3.4"⟩, ⟨2, 0, 86400000, 3600000⟩)]).1.allowed = false := by
  refine ⟨by decide, by decide, by simp, by decide⟩

/-- Claim C1 (amended): the check reports denial if and only if at least
one evaluated identifier's effective window count is at least — rather than
strictly exceeds — the configured limit for that window; when the decision
is allowed, the reported dailyCount and hourlyCount are the maximum
effective counts observed across all evaluated identifiers.  Stated for the
shared check body, hence for both the durable and the fallback path. -/
theorem c1_denial_iff_and_max_counts (cfg : RateLimitConfig) (now dTo hTo : Nat)
    (ids : List Ident) (st : Store) :
    ((checkGen cfg now dTo hTo ids st).1.allowed = false ↔
      ∃ id ∈ ids, cfg.maxMessagesPerDay ≤ effDaily now st id ∨
        cfg.maxMessagesPerHour ≤ effHourly now st id) ∧
    ((checkGen cfg now dTo hTo ids st).1.allowed = true →
      (checkGen cfg now dTo hTo ids st).1.dailyCount =
        ids.foldl (fun a id => max a (effDaily now st id)) 0 ∧
      (checkGen cfg now dTo hTo ids st).1.hourlyCount =
        ids.foldl (fun a id => max a (effHourly now st id)) 0) :=
  ⟨checkGen_allowed_false_iff cfg now dTo hTo ids st,
    checkGen_allowed_counts cfg now dTo hTo ids st⟩

/-- Witness for C1 at a concrete input: an allowed decision whose reported
daily count is read off from the maximum of the effective counts. -/
theorem c1_witness :
    (checkGen ⟨2, 50⟩ 0 (tomorrow 0) (nextHourTop 0) [⟨IdKind.ip, "1.2.3.4"⟩]
      [(⟨IdKind.ip, "1.2.3.4"⟩, ⟨1, 1, 86400000, 3600000⟩)]).1.dailyCount =
      [⟨IdKind.ip, "1.2.3.4"⟩].foldl
        (fun a id => max a
          (effDaily 0 [(⟨IdKind.ip, "1.2.3.4"⟩, ⟨1, 1, 86400000, 3600000⟩)] id)) 0 :=
  ((c1_denial_iff_and_max_counts ⟨2, 50⟩ 0 (tomorrow 0) (nextHourTop 0)
    [⟨IdKind.ip, "1.2.3.4"⟩]
    [(⟨IdKind.ip, "1.2.3.4"⟩, ⟨1, 1, 86400000, 3600000⟩)]).2 (by decide)).1

/-- Claim C2: identifiers are resolved in order NETWORK, then TOKEN when a
non-empty token was supplied, then FINGERPRINT when derivable, skipping
absent ones; and the first identifier found at or over a daily or hourly
limit causes immediate denial with its kind recorded as the trigger, the
records of the remaining identifiers being left untouched. -/
theorem c2_resolver_order_and_short_circuit :
    (∀ (ip t f : String), ip ≠ "" → t ≠ "" → f ≠ "" →
      resolveIdentifiers ip (some t) (some f) =
        [⟨IdKind.ip, ip⟩, ⟨IdKind.userToken, t⟩, ⟨IdKind.fingerprint, f⟩]) ∧
    (∀ (ip f : String), ip ≠ "" → f ≠ "" →
      resolveIdentifiers ip none (some f) = [⟨IdKind.ip, ip⟩, ⟨IdKind.fingerprint, f⟩] ∧
      resolveIdentifiers ip (some "") (some f) = [⟨IdKind.ip, ip⟩, ⟨IdKind.fingerprint, f⟩]) ∧
    (∀ (ip t : String), ip ≠ "" → t ≠ "" →
      resolveIdentifiers ip (some t) none = [⟨IdKind.ip, ip⟩, ⟨IdKind.userToken, t⟩]) ∧
    (∀ (cfg : RateLimitConfig) (now : Nat) (pre : List Ident) (v : Ident)
      (post : List Ident) (db : Store),
      (∀ id ∈ pre, effDaily now db id < cfg.maxMessagesPerDay ∧
        effHourly now db id < cfg.maxMessagesPerHour) →
      (cfg.maxMessagesPerDay ≤ effDaily now db v ∨
        cfg.maxMessagesPerHour ≤ effHourly now db v) →
      (checkRateLimitDB cfg now (pre ++ v :: post) db).1.allowed = false ∧
      (checkRateLimitDB cfg now (pre ++ v :: post) db).1.exceededBy = some v.kind ∧
      (∀ j, j ∉ pre → j ≠ v →
        getRec (checkRateLimitDB cfg now (pre ++ v :: post) db).2 j = getRec db j)) := by
  refine ⟨?_, ?_, ?_, ?_⟩
  · intro ip t f hip ht hf
    simp [resolveIdentifiers, hip, ht, hf]
  · intro ip f hip hf
    constructor <;> simp [resolveIdentifiers, hip, hf]
  · intro ip t hip ht
    simp [resolveIdentifiers, hip, ht]
  · intro cfg now pre v post db hpre hv
    exact checkGen_first cfg now (tomorrow now) (nextHourTop now) pre v post db hpre hv

/-- Witness for C2 at concrete inputs: the full resolver order, and a
denial triggered by the first (network) identifier while the later token
identifier's record is untouched. -/
theorem c2_witness :
    resolveIdentifiers "1.2.3.4" (some "tok") (some "fp") =
      [⟨IdKind.ip, "1.2.3.4"⟩, ⟨IdKind.userToken, "tok"⟩, ⟨IdKind.fingerprint, "fp"⟩] ∧
    (checkRateLimitDB ⟨2, 50⟩ 0
      ([] ++ ⟨IdKind.ip, "1.2.3.4"⟩ :: [⟨IdKind.userToken, "tok"⟩])
      [(⟨IdKind.ip, "1.2.3.4"⟩, ⟨2, 0, 86400000, 3600000⟩)]).1.exceededBy =
      some IdKind.ip := by
  constructor
  · exact c2_resolver_order_and_short_circuit.1 "1.2.3.4" "tok" "fp"
      (by decide) (by decide) (by decide)
  · exact (c2_resolver_order_and_short_circuit.2.2.2 ⟨2, 50⟩ 0 []
      ⟨IdKind.ip, "1.2.3.4"⟩ [⟨IdKind.userToken, "tok"⟩]
      [(⟨IdKind.ip, "1.2.3.4"⟩, ⟨2, 0, 86400000, 3600000⟩)]
      (by intro id hid; exact absurd hid (List.not_mem_nil id))
      (Or.inl (by decide))).2.1


theorem recordNDB_raw (now : Nat) (id : Ident) :
    ∀ (n : Nat) (db : Store),
      rawDaily (recordNDB now id n db) id = rawDaily db id + n ∧
      rawHourly (recordNDB now id n db) id = rawHourly db id + n := by
  intro n
  induction n with
  | zero => intro db; exact ⟨rfl, rfl⟩
  | succ n ihn =>
    intro db
    obtain ⟨e1, e2, e3⟩ := incrementCountDB_eq now [id] db
    have hsingle := rawDaily_incrementLoopDB now [id] db 0 0 (by simp) id (by simp)
    have hD : rawDaily (incrementCountDB now [id] db).2 id = rawDaily db id + 1 := by
      rw [rawDaily_congr _ _ _ (by rw [e3])]
      exact hsingle.1
    have hH : rawHourly (incrementCountDB now [id] db).2 id = rawHourly db id + 1 := by
      rw [rawHourly_congr _ _ _ (by rw [e3])]
      exact hsingle.2
    have hstep : recordNDB now id (n + 1) db =
        recordNDB now id n (incrementCountDB now [id] db).2 := rfl
    obtain ⟨ih1, ih2⟩ := ihn (incrementCountDB now [id] db).2
    constructor
    · rw [hstep, ih1, hD]
      omega
    · rw [hstep, ih2, hH]
      omega

/-- Claim C3: the record operation increments both window counts by
exactly 1 for every evaluated identifier (no short-circuit) and returns the
maximum post-increment counts; consequently N record calls for a single
identifier within one window leave the count at N.  The durable path
increments the stored counts unconditionally; the fallback path adds 1 to
the effective (post-reset) count, which is the stored count inside an
unexpired window. -/
theorem c3_record_increments :
    (∀ (now : Nat) (ids : List Ident) (db : Store), ids.Nodup →
      (∀ id ∈ ids,
        rawDaily (incrementCountDB now ids db).2 id = rawDaily db id + 1 ∧
        rawHourly (incrementCountDB now ids db).2 id = rawHourly db id + 1) ∧
      (incrementCountDB now ids db).1.1 =
        ids.foldl (fun a id => max a (rawDaily db id + 1)) 0 ∧
      (incrementCountDB now ids db).1.2 =
        ids.foldl (fun a id => max a (rawHourly db id + 1)) 0) ∧
    (∀ (now : Nat) (st : Store) (id : Ident),
      (incrementOneFB now st id).1.dailyCount = effDaily now st id + 1 ∧
      (incrementOneFB now st id).1.hourlyCount = effHourly now st id + 1) ∧
    (∀ (now : Nat) (id : Ident) (n : Nat) (db : Store),
      rawDaily (recordNDB now id n db) id = rawDaily db id + n ∧
      rawHourly (recordNDB now id n db) id = rawHourly db id + n) := by
  refine ⟨?_, ?_, ?_⟩
  · intro now ids db hnd
    obtain ⟨e1, e2, e3⟩ := incrementCountDB_eq now ids db
    refine ⟨?_, ?_, ?_⟩
    · intro id hid
      constructor
      · rw [rawDaily_congr _ _ _ (by rw [e3])]
        exact (rawDaily_incrementLoopDB now ids db 0 0 hnd id hid).1
      · rw [rawHourly_congr _ _ _ (by rw [e3])]
        exact (rawDaily_incrementLoopDB now ids db 0 0 hnd id hid).2
    · rw [e1]
      exact (incrementLoopDB_max now ids db 0 0 hnd).1
    · rw [e2]
      exact (incrementLoopDB_max now ids db 0 0 hnd).2
  · intro now st id
    constructor
    · unfold incrementOneFB effDaily
      cases h : getRec st id <;> simp [h, applyResets_dailyCount]
    · unfold incrementOneFB effHourly
      cases h : getRec st id <;> simp [h, applyResets_hourlyCount]
  · intro now id n db
    exact recordNDB_raw now id n db

/-- Witness for C3 at a concrete input: a first record leaves the count at
1, and three records starting from an empty store leave it at 3. -/
theorem c3_witness :
    rawDaily (incrementCountDB 0 [⟨IdKind.ip, "1.2.3.4"⟩] []).2 ⟨IdKind.ip, "1.2.3.4"⟩ = 1 ∧
    rawDaily (recordNDB 0 ⟨IdKind.ip, "1.2.3.4"⟩ 3 []) ⟨IdKind.ip, "1.2.3.4"⟩ = 3 := by
  constructor
  · exact ((c3_record_increments.1 0 [⟨IdKind.ip, "1.2.3.4"⟩] [] (by simp)).1
      ⟨IdKind.ip, "1.2.3.4"⟩ (by simp)).1
  · exact (c3_record_increments.2.2 0 ⟨IdKind.ip, "1.2.3.4"⟩ 3 []).1


/-- Claim C4, counterexample: a record whose daily and hourly resetAt both
equal now (so now is at, not past, the boundary) is NOT reset by the check:
both counts stay at 5 instead of the 0 the claim's boundary condition
now at least resetAt would require. -/
theorem c4_counterexample :
    (100 : Nat) ≥ 100 ∧
    (checkOne 100 (tomorrow 100) (nextHourTop 100)
      [(⟨IdKind.ip, "1.2.3.4"⟩, ⟨5, 5, 100, 100⟩)] ⟨IdKind.ip, "1.2.3.4"⟩).1.dailyCount = 5 ∧
    (checkOne 100 (tomorrow 100) (nextHourTop 100)
      [(⟨IdKind.ip, "1.2.3.4"⟩, ⟨5, 5, 100, 100⟩)] ⟨IdKind.ip, "1.2.3.4"⟩).1.hourlyCount = 5 ∧
    (5 : Nat) ≠ 0 := by
  refine ⟨by omega, by decide, by decide, by omega⟩

/-- Claim C4 (amended): for a stored record, the daily and hourly window
resets are independent and each fires exactly when now is STRICTLY past the
corresponding resetAt (not when now equals it): the reset zeroes that
window's count and advances its resetAt — daily to the start of the next
day, hourly (durably) to the top of the next hour — strictly past the old
value; re-running the check at the same instant changes nothing more, so a
boundary is consumed at most once; and a client over the hourly limit is
allowed again past the hourly boundary with its daily count unchanged. -/
theorem c4_window_resets (now : Nat) (db : Store) (id : Ident) (r : RateLimitRecord)
    (h : getRec db id = some r) :
    (checkOne now (tomorrow now) (nextHourTop now) db id).1.dailyCount =
      (if r.dailyResetTime < now then 0 else r.dailyCount) ∧
    (checkOne now (tomorrow now) (nextHourTop now) db id).1.dailyResetTime =
      (if r.dailyResetTime < now then tomorrow now else r.dailyResetTime) ∧
    (checkOne now (tomorrow now) (nextHourTop now) db id).1.hourlyCount =
      (if r.hourlyResetTime < now then 0 else r.hourlyCount) ∧
    (checkOne now (tomorrow now) (nextHourTop now) db id).1.hourlyResetTime =
      (if r.hourlyResetTime < now then nextHourTop now else r.hourlyResetTime) ∧
    (r.dailyResetTime < now → r.dailyResetTime < tomorrow now) ∧
    (r.hourlyResetTime < now → r.hourlyResetTime < nextHourTop now) ∧
    (checkOne now (tomorrow now) (nextHourTop now)
        (checkOne now (tomorrow now) (nextHourTop now) db id).2 id =
      ((checkOne now (tomorrow now) (nextHourTop now) db id).1,
        (checkOne now (tomorrow now) (nextHourTop now) db id).2)) ∧
    (∀ cfg : RateLimitConfig, 0 < cfg.maxMessagesPerHour →
      r.hourlyResetTime < now → ¬ r.dailyResetTime < now →
      r.dailyCount < cfg.maxMessagesPerDay →
      (checkRateLimitDB cfg now [id] db).1.allowed = true ∧
      (checkRateLimitDB cfg now [id] db).1.dailyCount = r.dailyCount) := by
  have hfst := checkOne_fst_eq now (tomorrow now) (nextHourTop now) db id r h
  have hget : getRec (checkOne now (tomorrow now) (nextHourTop now) db id).2 id =
      some (checkOne now (tomorrow now) (nextHourTop now) db id).1 := by
    rw [checkOne_snd]
    exact getRec_setRec_self _ _ _
  refine ⟨?_, ?_, ?_, ?_, ?_, ?_, ?_, ?_⟩
  · rw [hfst, applyResets_dailyCount]
  · rw [hfst, applyResets_dailyResetTime]
  · rw [hfst, applyResets_hourlyCount]
  · rw [hfst, applyResets_hourlyResetTime]
  · intro _
    have := lt_tomorrow now
    omega
  · intro _
    have := lt_nextHourTop now
    omega
  · have h1 : ¬ (checkOne now (tomorrow now) (nextHourTop now) db id).1.dailyResetTime
        < now := by
      rw [hfst, applyResets_dailyResetTime]
      split_ifs with hd
      · have := lt_tomorrow now
        omega
      · exact hd
    have h2 : ¬ (checkOne now (tomorrow now) (nextHourTop now) db id).1.hourlyResetTime
        < now := by
      rw [hfst, applyResets_hourlyResetTime]
      split_ifs with hh
      · have := lt_nextHourTop now
        omega
      · exact hh
    have hfst2 := checkOne_fst_eq now (tomorrow now) (nextHourTop now)
      (checkOne now (tomorrow now) (nextHourTop now) db id).2 id
      (checkOne now (tomorrow now) (nextHourTop now) db id).1 hget
    rw [Prod.ext_iff]
    constructor
    · rw [hfst2]
      exact applyResets_eq_self now _ _ _ h1 h2
    · rw [checkOne_snd, hget]
      simp only [Option.getD_some]
      rw [applyResets_eq_self now _ _ _ h1 h2]
      exact setRec_self_of_getRec _ _ _ hget
  · intro cfg hpos hh hd hlt
    have heffD : effDaily now db id = r.dailyCount := by
      unfold effDaily
      rw [h]
      simp [hd]
    have heffH : effHourly now db id = 0 := by
      unfold effHourly
      rw [h]
      simp [hh]
    have hiff := checkGen_allowed_false_iff cfg now (tomorrow now) (nextHourTop now) [id] db
    have hallow : (checkRateLimitDB cfg now [id] db).1.allowed = true := by
      cases hal : (checkRateLimitDB cfg now [id] db).1.allowed
      · exfalso
        have hal2 : (checkGen cfg now (tomorrow now) (nextHourTop now) [id] db).1.allowed
            = false := hal
        obtain ⟨i, hi, hvi⟩ := hiff.mp hal2
        rw [List.mem_singleton] at hi
        subst hi
        rw [heffD, heffH] at hvi
        rcases hvi with hvi | hvi <;> omega
      · rfl
    have hcounts := checkGen_allowed_counts cfg now (tomorrow now) (nextHourTop now)
      [id] db hallow
    refine ⟨hallow, ?_⟩
    show (checkGen cfg now (tomorrow now) (nextHourTop now) [id] db).1.dailyCount = r.dailyCount
    rw [hcounts.1]
    simp [heffD]

/-- Witness for C4 at a concrete input: a record whose hourly window is
expired but whose daily window is not keeps its daily count and is allowed
again. -/
theorem c4_witness :
    (checkOne 100 (tomorrow 100) (nextHourTop 100)
      [(⟨IdKind.ip, "9.9.9.9"⟩, ⟨5, 7, 360, 80⟩)] ⟨IdKind.ip, "9.9.9.9"⟩).1.dailyCount = 5 ∧
    (checkRateLimitDB ⟨200, 50⟩ 100 [⟨IdKind.ip, "9.9.9.9"⟩]
      [(⟨IdKind.ip, "9.9.9.9"⟩, ⟨5, 7, 360, 80⟩)]).1.allowed = true := by
  have hc := c4_window_resets 100 [(⟨IdKind.ip, "9.9.9.9"⟩, ⟨5, 7, 360, 80⟩)]
    ⟨IdKind.ip, "9.9.9.9"⟩ ⟨5, 7, 360, 80⟩ (by decide)
  constructor
  · rw [hc.1]
    decide
  · exact (hc.2.2.2.2.2.2.2 ⟨200, 50⟩ (by decide) (by decide) (by decide) (by decide)).1


/-- Claim C5, counterexample: on identical (empty) stores at the same
instant — half past the hour — the durable check stores and reports the
hourly reset at the top of the next hour (3600000) while the fallback
stores and reports it one full hour after now (5400000), so the fallback's
window-reset behaviour is not identical to the durable path's. -/
theorem c5_counterexample :
    (checkRateLimitDB ⟨200, 50⟩ 1800000 [⟨IdKind.ip, "1.2.3.4"⟩] []).1.hourlyResetTime
      = 3600000 ∧
    (checkRateLimitFallback ⟨200, 50⟩ 1800000 [⟨IdKind.ip, "1.2.3.4"⟩] []).1.hourlyResetTime
      = 5400000 ∧
    (3600000 : Nat) ≠ 5400000 := by
  refine ⟨by decide, by decide, by omega⟩

/-- Claim C5 (amended): when the durable store is unreachable every check
and record transparently runs on the in-memory fallback store and returns
a result of the same shape, leaving the durable store untouched and
surfacing no error; the fallback check's decision — allowed flag, reason,
both counts and the triggering kind — is identical to the durable check's
on the same store contents; and within unexpired windows the fallback
increment adds exactly 1 to both counts just as the durable one does.  The
two paths are NOT identical in reset behaviour: the hourly resetAt is the
top of the next hour durably but one hour after now in the fallback, and
only the fallback record path re-applies window resets before
incrementing. -/
theorem c5_fallback_equivalence :
    (∀ (cfg : RateLimitConfig) (now : Nat) (ids : List Ident) (ls : LimiterState),
      (checkRateLimitTop false cfg now ids ls).1 =
        (checkRateLimitFallback cfg now ids ls.fb).1 ∧
      (checkRateLimitTop false cfg now ids ls).2.db = ls.db ∧
      (incrementCountTop false now ids ls).1 = (incrementCountFallback now ids ls.fb).1 ∧
      (incrementCountTop false now ids ls).2.db = ls.db) ∧
    (∀ (cfg : RateLimitConfig) (now : Nat) (ids : List Ident) (st : Store),
      (checkRateLimitFallback cfg now ids st).1.allowed =
        (checkRateLimitDB cfg now ids st).1.allowed ∧
      (checkRateLimitFallback cfg now ids st).1.reason =
        (checkRateLimitDB cfg now ids st).1.reason ∧
      (checkRateLimitFallback cfg now ids st).1.dailyCount =
        (checkRateLimitDB cfg now ids st).1.dailyCount ∧
      (checkRateLimitFallback cfg now ids st).1.hourlyCount =
        (checkRateLimitDB cfg now ids st).1.hourlyCount ∧
      (checkRateLimitFallback cfg now ids st).1.exceededBy =
        (checkRateLimitDB cfg now ids st).1.exceededBy) ∧
    (∀ (cfg : RateLimitConfig) (now : Nat) (ids : List Ident) (st : Store),
      (checkRateLimitFallback cfg now ids st).1.hourlyResetTime = nextHourFB now ∧
      (checkRateLimitDB cfg now ids st).1.hourlyResetTime = nextHourTop now) ∧
    (∀ (now : Nat) (st : Store) (id : Ident) (r : RateLimitRecord),
      getRec st id = some r → ¬ r.dailyResetTime < now → ¬ r.hourlyResetTime < now →
      (incrementOneFB now st id).1.dailyCount = r.dailyCount + 1 ∧
      (incrementOneFB now st id).1.hourlyCount = r.hourlyCount + 1 ∧
      (incrementOneDB now st id).1.dailyCount = r.dailyCount + 1 ∧
      (incrementOneDB now st id).1.hourlyCount = r.hourlyCount + 1) := by
  refine ⟨?_, ?_, ?_, ?_⟩
  · intro cfg now ids ls
    exact ⟨rfl, rfl, rfl, rfl⟩
  · intro cfg now ids st
    have h := checkGen_agree cfg now (tomorrow now) (nextHourFB now)
      (tomorrow now) (nextHourTop now) ids st st (fun _ _ => rfl) (fun _ _ => rfl)
    exact h
  · intro cfg now ids st
    exact ⟨checkGen_hourlyResetTime cfg now (tomorrow now) (nextHourFB now) ids st,
      checkGen_hourlyResetTime cfg now (tomorrow now) (nextHourTop now) ids st⟩
  · intro now st id r h hd hh
    have hself := applyResets_eq_self now r (tomorrow now) (nextHourFB now) hd hh
    refine ⟨?_, ?_, ?_, ?_⟩
    · unfold incrementOneFB
      rw [h]
      simp only [Option.getD_some, hself]
    · unfold incrementOneFB
      rw [h]
      simp only [Option.getD_some, hself]
    · unfold incrementOneDB
      rw [h]
    · unfold incrementOneDB
      rw [h]

/-- Witness for C5 at concrete inputs: the fallback dispatch serves the
check, and the fallback increment inside an unexpired window adds 1. -/
theorem c5_witness :
    (checkRateLimitTop false ⟨200, 50⟩ 0 [⟨IdKind.ip, "1.2.3.4"⟩] ⟨[], []⟩).1 =
      (checkRateLimitFallback ⟨200, 50⟩ 0 [⟨IdKind.ip, "1.2.3.4"⟩] []).1 ∧
    (incrementOneFB 7 [(⟨IdKind.ip, "1.2.3.4"⟩, ⟨3, 4, 100, 100⟩)]
      ⟨IdKind.ip, "1.2.3.4"⟩).1.dailyCount = 4 := by
  constructor
  · exact (c5_fallback_equivalence.1 ⟨200, 50⟩ 0 [⟨IdKind.ip, "1.2.3.4"⟩] ⟨[], []⟩).1
  · exact (c5_fallback_equivalence.2.2.2 7 [(⟨IdKind.ip, "1.2.3.4"⟩, ⟨3, 4, 100, 100⟩)]
      ⟨IdKind.ip, "1.2.3.4"⟩ ⟨3, 4, 100, 100⟩ (by decide) (by decide) (by decide)).1


/-- Claim C6, counterexample: a present userInfo object with NO available
fields (browser and geolocation both absent) still yields a present
fingerprint — the digest of the empty concatenation — so absent fields do
not make the output absent; only a missing userInfo object does. -/
theorem c6_counterexample :
    (⟨none, none⟩ : UserInfo).browser = none ∧
    (⟨none, none⟩ : UserInfo).geolocation = none ∧
    generateFingerprint (fun s => s) (some ⟨none, none⟩) = some "" ∧
    generateFingerprint (fun s => s) (some ⟨none, none⟩) ≠ none := by
  refine ⟨rfl, rfl, rfl, by simp [generateFingerprint]⟩

/-- Claim C6 (amended): fingerprint generation is a pure deterministic
function of the five device/geo fields — two inputs presenting identical
device name, version, OS, country and city yield the identical fingerprint
for any digest function — and the output is absent exactly when the
userInfo object itself is absent (a present object with all fields missing
hashes the empty concatenation). -/
theorem c6_fingerprint_deterministic :
    (∀ (digest : String → String) (u1 u2 : UserInfo),
      (u1.browser.bind BrowserInfo.name).getD "" =
        (u2.browser.bind BrowserInfo.name).getD "" →
      (u1.browser.bind BrowserInfo.version).getD "" =
        (u2.browser.bind BrowserInfo.version).getD "" →
      (u1.browser.bind BrowserInfo.os).getD "" =
        (u2.browser.bind BrowserInfo.os).getD "" →
      (u1.geolocation.bind GeoInfo.country).getD "" =
        (u2.geolocation.bind GeoInfo.country).getD "" →
      (u1.geolocation.bind GeoInfo.city).getD "" =
        (u2.geolocation.bind GeoInfo.city).getD "" →
      generateFingerprint digest (some u1) = generateFingerprint digest (some u2)) ∧
    (∀ digest : String → String, generateFingerprint digest none = none) ∧
    (∀ (digest : String → String) (u : UserInfo),
      generateFingerprint digest (some u) ≠ none) := by
  refine ⟨?_, fun _ => rfl, ?_⟩
  · intro digest u1 u2 h1 h2 h3 h4 h5
    unfold generateFingerprint fingerprintInput
    dsimp only
    rw [h1, h2, h3, h4, h5]
  · intro digest u
    simp [generateFingerprint]

/-- Witness for C6 at concrete inputs: two structurally different userInfo
payloads with the same (empty) field projections produce the same
fingerprint. -/
theorem c6_witness :
    generateFingerprint (fun s => s) (some ⟨none, none⟩) =
      generateFingerprint (fun s => s) (some ⟨some ⟨none, none, none⟩, some ⟨none, none⟩⟩) :=
  c6_fingerprint_deterministic.1 (fun s => s) ⟨none, none⟩
    ⟨some ⟨none, none, none⟩, some ⟨none, none⟩⟩ rfl rfl rfl rfl rfl

/-- Claim C7: with dailyLimit 2, three consecutive same-network requests
with no token behave as specified — allowed with dailyCount 1, allowed with
dailyCount 2, then denied with the daily window as the reason, dailyCount
still 2, and the store unchanged by the denied request since record is not
invoked on denial. -/
theorem c7_scenarioA :
    scenarioAStep1.1 = ⟨true, none, 1, 1⟩ ∧
    scenarioAStep2.1 = ⟨true, none, 2, 2⟩ ∧
    scenarioAStep3.1 = ⟨false, some LimitWindow.daily, 2, 2⟩ ∧
    rawDaily scenarioAStep3.2 scenarioAIdent = 2 ∧
    scenarioAStep3.2 = scenarioAStep2.2 := by
  refine ⟨by decide, by decide, by decide, by decide, by decide⟩

/-- Claim C10: when every per-identifier durable read throws, the check
loop skips every identifier, leaves the store untouched, and returns an
allowed decision with both counts 0 — the limiter fails open and a failing
store read alone never causes a denial. -/
theorem c10_fail_open (cfg : RateLimitConfig) (now : Nat) (fails : Ident → Bool)
    (ids : List Ident) (db : Store) (h : ∀ id ∈ ids, fails id = true) :
    (checkRateLimitDBErr cfg now fails ids db).1.allowed = true ∧
    (checkRateLimitDBErr cfg now fails ids db).1.dailyCount = 0 ∧
    (checkRateLimitDBErr cfg now fails ids db).1.hourlyCount = 0 ∧
    (checkRateLimitDBErr cfg now fails ids db).2 = db := by
  have hloop := checkLoopErr_all_fail cfg now (tomorrow now) (nextHourTop now)
    fails ids db 0 0 h
  unfold checkRateLimitDBErr
  rw [hloop]
  exact ⟨rfl, rfl, rfl, rfl⟩

/-- Witness for C10 at a concrete input: all three identifier reads fail
and the check still allows with zero counts. -/
theorem c10_witness :
    (checkRateLimitDBErr ⟨2, 50⟩ 0 (fun _ => true)
      [⟨IdKind.ip, "1.2.3.4"⟩, ⟨IdKind.userToken, "tok"⟩, ⟨IdKind.fingerprint, "fp"⟩]
      [(⟨IdKind.ip, "1.2.3.4"⟩, ⟨99, 99, 86400000, 3600000⟩)]).1.allowed = true :=
  (c10_fail_open ⟨2, 50⟩ 0 (fun _ => true)
    [⟨IdKind.ip, "1.2.3.4"⟩, ⟨IdKind.userToken, "tok"⟩, ⟨IdKind.fingerprint, "fp"⟩]
    [(⟨IdKind.ip, "1.2.3.4"⟩, ⟨99, 99, 86400000, 3600000⟩)]
    (fun _ _ => rfl)).1


/-! ### User resolution -/

theorem map_token_replaceUser (users : List UserProfile) (t : String) (u1 : UserProfile)
    (h : u1.token = t) :
    (replaceUser users t u1).map UserProfile.token = users.map UserProfile.token := by
  induction users with
  | nil => rfl
  | cons u us ih =>
    simp only [replaceUser, List.map_cons] at ih ⊢
    by_cases hc : u.token = t
    · rw [if_pos hc, ih, h, hc]
    · rw [if_neg hc, ih]

theorem findUserByToken_some (t : String) (users : List UserProfile) (u : UserProfile)
    (h : findUserByToken (some t) users = some u) : u.token = t ∧ u ∈ users := by
  unfold findUserByToken at h
  dsimp only at h
  have hp := List.find?_some h
  simp only [beq_iff_eq] at hp
  exact ⟨hp, List.mem_of_find?_eq_some h⟩

theorem findUserByToken_none (t : String) (users : List UserProfile)
    (h : findUserByToken (some t) users = none) : countToken users t = 0 := by
  unfold findUserByToken at h
  dsimp only at h
  unfold countToken
  rw [List.count_eq_zero]
  intro hmem
  obtain ⟨u, hu, htok⟩ := List.mem_map.mp hmem
  exact absurd (beq_iff_eq.mpr htok) (by simpa using List.find?_eq_none.mp h u hu)

theorem any_token_eq_false_of_find_none (t : String) (users : List UserProfile)
    (h : findUserByToken (some t) users = none) :
    users.any (fun u => u.token == t) = false := by
  unfold findUserByToken at h
  dsimp only at h
  rw [List.any_eq_false]
  intro u hu
  simpa using List.find?_eq_none.mp h u hu

theorem findOrCreate_supplied (now : Nat) (f t : String) (ip : Option String)
    (users : List UserProfile) (r : (UserProfile × Bool) × List UserProfile)
    (ht : t ≠ "") (hn : (users.map UserProfile.token).Nodup)
    (hcall : findOrCreateByToken now f (some t) ip users = some r) :
    r.1.1.token = t ∧ countToken r.2 t = 1 ∧
    (r.2.map UserProfile.token).Nodup ∧
    (r.1.2 = true ↔ countToken users t = 0) := by
  unfold findOrCreateByToken at hcall
  cases h1 : findUserByToken (some t) users with
  | some u =>
    rw [h1] at hcall
    dsimp only at hcall
    rw [Option.some.injEq] at hcall
    subst hcall
    obtain ⟨htok, hmem⟩ := findUserByToken_some t users u h1
    have htmem : t ∈ users.map UserProfile.token := List.mem_map.mpr ⟨u, hmem, htok⟩
    have hcnt : countToken users t = 1 := List.count_eq_one_of_mem hn htmem
    have hrep := map_token_replaceUser users u.token
      { u with
        lastSeenIP := match ip with
          | some s => if s = "" then u.lastSeenIP else some s
          | none => u.lastSeenIP,
        lastActivity := now } rfl
    refine ⟨htok, ?_, ?_, ?_⟩
    · unfold countToken
      rw [hrep]
      exact hcnt
    · rw [hrep]
      exact hn
    · constructor
      · intro hb
        exact absurd hb (by simp)
      · intro h0
        omega
  | none =>
    rw [h1] at hcall
    dsimp only at hcall
    rw [if_neg ht, any_token_eq_false_of_find_none t users h1] at hcall
    simp only [Bool.false_eq_true, if_false] at hcall
    rw [Option.some.injEq] at hcall
    subst hcall
    have hz : countToken users t = 0 := findUserByToken_none t users h1
    have hnotmem : t ∉ users.map UserProfile.token := by
      unfold countToken at hz
      exact List.count_eq_zero.mp hz
    refine ⟨rfl, ?_, ?_, ?_⟩
    · unfold countToken
      simp only [List.map_cons, List.count_cons_self]
      unfold countToken at hz
      omega
    · simp only [List.map_cons]
      exact List.nodup_cons.mpr ⟨hnotmem, hn⟩
    · simp [hz]

/-- Claim C8, counterexample: a unique-key creation conflict is NOT
resolved to the existing profile.  With no token supplied and the freshly
minted token colliding with a stored profile, the duplicate-key catch
re-queries findOne on the original (absent) token, finds nothing, and
rethrows: the operation errors instead of returning the stored profile. -/
theorem c8_counterexample :
    countToken [(⟨"X", some "9.9.9.9", some "9.9.9.9", 0⟩ : UserProfile)] "X" = 1 ∧
    findOrCreateByToken 0 "X" none (some "1.2.3.4")
      [⟨"X", some "9.9.9.9", some "9.9.9.9", 0⟩] = none := by
  exact ⟨by decide, rfl⟩

/-- Claim C8 (amended): resolveUser is idempotent under retries with the
same supplied token — repeated calls yield the profile keyed by that
token, exactly one profile per token exists after each call, the retry
never creates and never errors (token is the profile's unique key); a
supplied-but-unknown token creates a profile keyed by that token; a
missing token mints the fresh opaque token with a fresh profile when that
minted token is unused; but a unique-key creation conflict is re-resolved
by querying the ORIGINAL token, so a collision of the minted token (the
original token being absent) surfaces the error rather than resolving to
the existing profile. -/
theorem c8_resolveUser_idempotent :
    (∀ (now1 now2 : Nat) (f1 f2 t : String) (ip1 ip2 : Option String)
      (users : List UserProfile) (r1 r2 : (UserProfile × Bool) × List UserProfile),
      t ≠ "" → (users.map UserProfile.token).Nodup →
      findOrCreateByToken now1 f1 (some t) ip1 users = some r1 →
      findOrCreateByToken now2 f2 (some t) ip2 r1.2 = some r2 →
      r1.1.1.token = t ∧ countToken r1.2 t = 1 ∧
      (r1.1.2 = true ↔ countToken users t = 0) ∧
      r2.1.1.token = t ∧ countToken r2.2 t = 1 ∧ r2.1.2 = false) ∧
    (∀ (now : Nat) (f t : String) (ip : Option String) (users : List UserProfile),
      t ≠ "" → findOrCreateByToken now f (some t) ip users ≠ none) ∧
    (∀ (now : Nat) (f : String) (ip : Option String) (users : List UserProfile),
      countToken users f = 0 →
      findOrCreateByToken now f none ip users =
        some ((⟨f, ip, ip, now⟩, true), ⟨f, ip, ip, now⟩ :: users)) ∧
    (∀ (now : Nat) (f : String) (ip : Option String) (users : List UserProfile),
      countToken users f ≠ 0 →
      findOrCreateByToken now f none ip users = none) := by
  refine ⟨?_, ?_, ?_, ?_⟩
  · intro now1 now2 f1 f2 t ip1 ip2 users r1 r2 ht hn hcall1 hcall2
    obtain ⟨tok1, cnt1, nodup1, iff1⟩ :=
      findOrCreate_supplied now1 f1 t ip1 users r1 ht hn hcall1
    obtain ⟨tok2, cnt2, _, iff2⟩ :=
      findOrCreate_supplied now2 f2 t ip2 r1.2 r2 ht nodup1 hcall2
    refine ⟨tok1, cnt1, iff1, tok2, cnt2, ?_⟩
    cases hb : r2.1.2
    · rfl
    · exfalso
      have h0 := iff2.mp hb
      omega
  · intro now f t ip users ht
    unfold findOrCreateByToken
    cases h1 : findUserByToken (some t) users with
    | some u => simp
    | none =>
      dsimp only
      rw [if_neg ht, any_token_eq_false_of_find_none t users h1]
      simp
  · intro now f ip users hz
    have hany : users.any (fun u => u.token == f) = false := by
      rw [List.any_eq_false]
      intro u hu
      unfold countToken at hz
      have hnm := List.count_eq_zero.mp hz
      simp only [Bool.not_eq_true, beq_eq_false_iff_ne, ne_eq]
      intro hvf
      exact hnm (List.mem_map.mpr ⟨u, hu, hvf⟩)
    unfold findOrCreateByToken findUserByToken
    dsimp only
    rw [hany]
    simp
  · intro now f ip users hz
    have hany : users.any (fun u => u.token == f) = true := by
      rw [List.any_eq_true]
      unfold countToken at hz
      have hmem : f ∈ users.map UserProfile.token := by
        by_contra hno
        exact hz (List.count_eq_zero.mpr hno)
      obtain ⟨u, hu, hut⟩ := List.mem_map.mp hmem
      exact ⟨u, hu, by simpa using hut⟩
    unfold findOrCreateByToken findUserByToken
    dsimp only
    rw [hany]
    simp

/-- Witness for C8 at concrete inputs: a create followed by a retry with
the same token keeps exactly one profile for that token and the retry
does not create. -/
theorem c8_witness :
    countToken [(⟨"tokA", some "1.2.3.4", some "2.2.2.2", 1⟩ : UserProfile)] "tokA" = 1 ∧
    (((⟨"tokA", some "1.2.3.4", some "2.2.2.2", 1⟩ : UserProfile), false),
      [(⟨"tokA", some "1.2.3.4", some "2.2.2.2", 1⟩ : UserProfile)]).1.2 = false := by
  have h := c8_resolveUser_idempotent.1 0 1 "r0" "r1" "tokA"
    (some "1.2.3.4") (some "2.2.2.2") []
    ((⟨"tokA", some "1.2.3.4", some "1.2.3.4", 0⟩, true),
      [⟨"tokA", some "1.2.3.4", some "1.2.3.4", 0⟩])
    ((⟨"tokA", some "1.2.3.4", some "2.2.2.2", 1⟩, false),
      [⟨"tokA", some "1.2.3.4", some "2.2.2.2", 1⟩])
    (by decide) (by simp) (by decide) (by decide)
  exact ⟨h.2.2.2.2.1, h.2.2.2.2.2⟩

/-! ### The quota cache -/

theorem checkGen_eq_of_eff (cfg : RateLimitConfig) (now dTo hTo : Nat) (ids : List Ident)
    (st1 st2 : Store)
    (hD : ∀ j ∈ ids, effDaily now st1 j = effDaily now st2 j)
    (hH : ∀ j ∈ ids, effHourly now st1 j = effHourly now st2 j) :
    (checkGen cfg now dTo hTo ids st1).1 = (checkGen cfg now dTo hTo ids st2).1 := by
  obtain ⟨ho, hmd, hmh⟩ := checkLoop_agree cfg now dTo hTo dTo hTo ids st1 st2 0 0 hD hH
  unfold checkGen
  rcases hloop1 : checkLoop cfg now dTo hTo ids st1 0 0 with ⟨o1, mD1, mH1, sta⟩
  rcases hloop2 : checkLoop cfg now dTo hTo ids st2 0 0 with ⟨o2, mD2, mH2, stb⟩
  rw [hloop1, hloop2] at ho hmd hmh
  dsimp only at ho hmd hmh
  subst ho hmd hmh
  cases o1 with
  | none => rfl
  | some p =>
    obtain ⟨v, w⟩ := p
    rfl

theorem getCached_mem (cache : QuotaCache) (k : CacheKey) (e : Nat × CheckOutcome)
    (h : getCached cache k = some e) : (k, e) ∈ cache := by
  induction cache with
  | nil => simp [getCached] at h
  | cons hd tl ih =>
    obtain ⟨k0, e0⟩ := hd
    by_cases hk : k0 = k
    · subst hk
      simp [getCached] at h
      subst h
      exact List.mem_cons_self _ _
    · simp [getCached, hk] at h
      exact List.mem_cons_of_mem _ (ih h)

theorem overlapIdents_false (a b : List Ident) (h : overlapIdents a b = false) :
    ∀ i ∈ a, i ∉ b := by
  intro i hi hib
  unfold overlapIdents at h
  rw [List.any_eq_false] at h
  exact absurd (List.elem_iff.mpr hib) (by simpa using h i hi)

theorem getRec_incrementCountDB_not_mem (now : Nat) (ids : List Ident) (db : Store)
    (j : Ident) (hj : j ∉ ids) :
    getRec (incrementCountDB now ids db).2 j = getRec db j := by
  obtain ⟨e1, e2, e3⟩ := incrementCountDB_eq now ids db
  rw [e3]
  exact getRec_incrementLoopDB_not_mem now ids db 0 0 j hj

/-- Claim C9 (modelled from the spec, sections 4.5 and 8): the Quota Cache
never serves a check result staler than the most recent record for an
overlapping identifier.  Coherence — every cache entry equals the fresh
check result against the current counter store — holds initially, is
preserved by every memoized check and by every record (whose write path
invalidates exactly the overlapping entries), a served result always
equals the fresh check result, and immediately after a record no entry
overlapping the recorded identifiers remains cached. -/
theorem c9_cache_never_stale (cfg : RateLimitConfig) (now ttl : Nat)
    (fp : CacheKey → Option String) :
    (∀ db : Store, CacheCoherent cfg now fp ⟨db, []⟩) ∧
    (∀ (st : QuotaState) (k : CacheKey), CacheCoherent cfg now fp st →
      CacheCoherent cfg now fp (cachedCheck cfg ttl now fp k st).2) ∧
    (∀ (st : QuotaState) (k : CacheKey), CacheCoherent cfg now fp st →
      CacheCoherent cfg now fp (recordReq now fp k st).2) ∧
    (∀ (st : QuotaState) (k : CacheKey), CacheCoherent cfg now fp st →
      (cachedCheck cfg ttl now fp k st).1 =
        (checkRateLimitDB cfg now (reqIds fp k) st.db).1) ∧
    (∀ (st : QuotaState) (k k1 : CacheKey) (e : Nat × CheckOutcome),
      overlapIdents (reqIds fp k1) (reqIds fp k) = true →
      (k1, e) ∉ (recordReq now fp k st).2.cache) := by
  refine ⟨?_, ?_, ?_, ?_, ?_⟩
  · intro db e he
    exact absurd he (List.not_mem_nil e)
  · intro st k hco
    rcases hhit : getCached (dropExpired now ttl st.cache) k with _ | e
    · simp only [CacheCoherent, cachedCheck, hhit]
      intro e1 he1
      have hsame : ∀ ids1 : List Ident,
          (checkRateLimitDB cfg now ids1
            (checkRateLimitDB cfg now (reqIds fp k) st.db).2).1 =
          (checkRateLimitDB cfg now ids1 st.db).1 :=
        fun ids1 => checkGen_eq_of_eff cfg now (tomorrow now) (nextHourTop now) ids1 _ _
          (fun j _ => effDaily_checkGen cfg now (tomorrow now) (nextHourTop now)
            (reqIds fp k) st.db j)
          (fun j _ => effHourly_checkGen cfg now (tomorrow now) (nextHourTop now)
            (reqIds fp k) st.db j)
      rcases List.mem_cons.mp he1 with he1 | he1
      · subst he1
        exact (hsame (reqIds fp k)).symm
      · rw [hsame (reqIds fp e1.1)]
        exact hco e1 (List.mem_filter.mp he1).1
    · simp only [CacheCoherent, cachedCheck, hhit]
      intro e1 he1
      exact hco e1 (List.mem_filter.mp he1).1
  · intro st k hco
    simp only [CacheCoherent, recordReq]
    intro e1 he1
    obtain ⟨hmem, hpred⟩ := List.mem_filter.mp he1
    have hdisj : ∀ i ∈ reqIds fp e1.1, i ∉ reqIds fp k := by
      apply overlapIdents_false
      simpa using hpred
    have hD : ∀ j ∈ reqIds fp e1.1,
        effDaily now (incrementCountDB now (reqIds fp k) st.db).2 j =
          effDaily now st.db j := by
      intro j hj
      exact effDaily_congr now _ _ j
        (getRec_incrementCountDB_not_mem now (reqIds fp k) st.db j (hdisj j hj))
    have hH : ∀ j ∈ reqIds fp e1.1,
        effHourly now (incrementCountDB now (reqIds fp k) st.db).2 j =
          effHourly now st.db j := by
      intro j hj
      exact effHourly_congr now _ _ j
        (getRec_incrementCountDB_not_mem now (reqIds fp k) st.db j (hdisj j hj))
    have heq : (checkRateLimitDB cfg now (reqIds fp e1.1)
        (incrementCountDB now (reqIds fp k) st.db).2).1 =
        (checkRateLimitDB cfg now (reqIds fp e1.1) st.db).1 :=
      checkGen_eq_of_eff cfg now (tomorrow now) (nextHourTop now) (reqIds fp e1.1)
        _ _ hD hH
    rw [heq]
    exact hco e1 hmem
  · intro st k hco
    rcases hhit : getCached (dropExpired now ttl st.cache) k with _ | e
    · simp only [cachedCheck, hhit]
    · simp only [cachedCheck, hhit]
      have hmem := getCached_mem _ _ _ hhit
      exact hco (k, e) (List.mem_filter.mp hmem).1
  · intro st k k1 e hover hmem
    simp only [recordReq] at hmem
    have hpred := (List.mem_filter.mp hmem).2
    simp [hover] at hpred

/-- Witness for C9 at a concrete input: after a record for a key, the
previously cached entry for that same key is gone. -/
theorem c9_witness :
    ((⟨"1.2.3.4", some "tok"⟩ : CacheKey),
      ((0 : Nat), (⟨true, none, 0, 0, 86400000, 3600000, none⟩ : CheckOutcome))) ∉
      (recordReq 0 (fun _ => none) ⟨"1.2.3.4", some "tok"⟩
        ⟨[], [(⟨"1.2.3.4", some "tok"⟩,
          0, ⟨true, none, 0, 0, 86400000, 3600000, none⟩)]⟩).2.cache :=
  (c9_cache_never_stale ⟨200, 50⟩ 0 5000 (fun _ => none)).2.2.2.2
    ⟨[], [(⟨"1.2.3.4", some "tok"⟩, 0, ⟨true, none, 0, 0, 86400000, 3600000, none⟩)]⟩
    ⟨"1.2.3.4", some "tok"⟩ ⟨"1.2.3.4", some "tok"⟩
    (0, ⟨true, none, 0, 0, 86400000, 3600000, none⟩) (by decide)

end MeetLovish
